import Mathlib

/-!
Grid (main.c): a toroidal Game-of-Life viewer

Shallow embedding of `src/main.c`.

* C `int` values are `Int` (every quantity of the program stays far below `2^31`).
* The heap buffers `pixels`, `cells`, `ncells` and `buttons` are total functions of an
  `Int` index; only the indices of the allocated range are meaningful.
* `cells` / `ncells` have element type `bool` (an `unsigned char` that the program only
  ever assigns `FALSE` or `TRUE`, starting from `calloc`); they are modelled with `Bool`.
* A `for` loop is a left fold of its body over the list of values its variable takes.
* The process-wide variables are gathered in `State`; the locals of `main` that survive a
  loop iteration are in `MainState`.  Timing (`SDL_GetTicks`, `SDL_Delay`) and the
  presentation calls of SDL have no effect on these and are left out.
-/

namespace Grid

/-! ## DEFINITIONS -/

abbrev WINDOW_WIDTH : Int := 640
abbrev WINDOW_HEIGHT : Int := 480
abbrev CELL_SIZE : Int := 20
abbrev CELL_PAD : Int := 2
abbrev ICON_SIZE : Int := 40
abbrev ICON_PAD : Int := 5
abbrev N_CELLS_X : Int := WINDOW_WIDTH / CELL_SIZE
abbrev N_CELLS_Y : Int := (WINDOW_HEIGHT - ICON_SIZE) / CELL_SIZE
abbrev N_BUTTONS : Int := 4
abbrev N_SPEEDS : Int := 5

/-! ## TYPES -/

inductive color where
  | WHITE
  | BLACK
  deriving DecidableEq

inductive icon where
  | BUTTON_ON
  | BUTTON_OFF
  | BUTTON_SPEED_UP
  | BUTTON_SPEED_DOWN
  | BUTTON_CLEAR
  deriving DecidableEq

/-- The functions a button's `on_click` pointer can hold. -/
inductive handler where
  | play
  | speed_down
  | speed_up
  | clear
  deriving DecidableEq

/-- The record `struct _button`; `on_click = none` is the null pointer left by `calloc`. -/
structure button where
  x : Int
  y : Int
  pad : Int
  scale : Int
  state : Bool
  icn_true : icon
  icn_false : icon
  on_click : Option handler
  deriving DecidableEq

/-- The global variables of the program. -/
structure State where
  pixels : Int → Nat
  cells : Int → Bool
  ncells : Int → Bool
  running : Bool
  buttons : Int → button
  speed_idx : Int

/-- The events `SDL_PollEvent` can deliver, with the pointer position where there is one. -/
inductive SDL_Event where
  | QUIT
  | MOUSEMOTION (x y : Int)
  | MOUSEBUTTONUP (x y : Int)
  | MOUSEBUTTONDOWN (x y : Int)
  | OTHER
  deriving DecidableEq

/-! ## GLOBAL CONSTANTS -/

def color_values : color → Nat
  | color.WHITE => 0xFFFFFF
  | color.BLACK => 0x000000

def icons : icon → List Nat
  | icon.BUTTON_ON => [0x00, 0x18, 0x18, 0x18, 0x18, 0x18, 0x18, 0x00]
  | icon.BUTTON_OFF => [0x00, 0x3C, 0x7E, 0x66, 0x66, 0x7E, 0x3C, 0x00]
  | icon.BUTTON_SPEED_UP => [0x00, 0x48, 0x6C, 0x7E, 0x7E, 0x6C, 0x48, 0x00]
  | icon.BUTTON_SPEED_DOWN => [0x00, 0x12, 0x36, 0x7E, 0x7E, 0x36, 0x12, 0x00]
  | icon.BUTTON_CLEAR => [0x00, 0x60, 0x70, 0x38, 0x1C, 0x0E, 0x06, 0x00]

def speeds : List Int := [60, 30, 15, 10, 5]

/-- The table read `speeds[i]`. -/
def speeds_at (i : Int) : Int := speeds.getD i.toNat 0

/-! ## Loops and block operations -/

/-- Values taken by `v` in `for(v = lo; v < hi; v += step)`, for `step > 0`. -/
def loopVals (lo hi step : Int) : List Int :=
  (List.range ((hi - lo + step - 1) / step).toNat).map (fun (k : Nat) => lo + step * (k : Int))

/-- The call `memset(buf, v, n)` on a buffer of one-byte elements. -/
def memset {α : Type} (buf : Int → α) (v : α) (n : Int) : Int → α :=
  fun i => if 0 ≤ i ∧ i < n then v else buf i

/-- The call `memcpy(dst, src, n)` on buffers of one-byte elements. -/
def memcpy {α : Type} (dst src : Int → α) (n : Int) : Int → α :=
  fun i => if 0 ≤ i ∧ i < n then src i else dst i

/-! ## UTILS -/

def arrayIdx (x y width : Int) : Int :=
  x + (y * width)

def point_in_rectangle (px py rx ry rw rh : Int) : Bool :=
  if (px > rx) && (px < rx + rw) && (py > ry) && (py < ry + rh) then true else false

/-! ## PROGRAM LOGIC -/

/-- The index read in the body of `count_neighbors_on` for the offset `(dx, dy)`
(lines 117 to 121). -/
def neighbor_idx (x y dx dy : Int) : Int :=
  let nx := if (x + dx) ≥ N_CELLS_X then 0 else (x + dx)
  let nx := if nx < 0 then N_CELLS_X - 1 else nx
  let ny := if (y + dy) ≥ N_CELLS_Y then 0 else (y + dy)
  let ny := if ny < 0 then N_CELLS_Y - 1 else ny
  arrayIdx nx ny N_CELLS_X

def count_neighbors_on (cells : Int → Bool) (x y : Int) : Int :=
  (loopVals (-1) 2 1).foldl (fun count dx =>
    (loopVals (-1) 2 1).foldl (fun count dy =>
      if dx ≠ 0 ∨ dy ≠ 0 then
        if cells (neighbor_idx x y dx dy) = true then count + 1 else count
      else count) count) 0

/-- The body of the double loop of `update_cells` for the cell `(x, y)`. -/
def update_cell (cells ncells : Int → Bool) (x y : Int) : Int → Bool :=
  let n := count_neighbors_on cells x y
  let idx := arrayIdx x y N_CELLS_X
  if cells idx = true then
    if n < 2 then Function.update ncells idx false
    else if n ≤ 3 then Function.update ncells idx true
    else Function.update ncells idx false
  else
    if n = 3 then Function.update ncells idx true else ncells

def update_cells (s : State) : State :=
  let ncells0 := memset s.ncells false (N_CELLS_X * N_CELLS_Y)
  let ncells1 := (loopVals 0 N_CELLS_Y 1).foldl (fun nc y =>
    (loopVals 0 N_CELLS_X 1).foldl (fun nc x => update_cell s.cells nc x y) nc) ncells0
  { s with ncells := ncells1, cells := memcpy s.cells ncells1 (N_CELLS_X * N_CELLS_Y) }

/-! ## UI EVENTS

Each handler receives the pointer `&buttons[i]` as the index `i`. -/

def play_on_click (i : Int) (s : State) : State :=
  if (s.buttons i).state = true then
    { s with buttons := Function.update s.buttons i { s.buttons i with state := false },
             running := false }
  else
    { s with buttons := Function.update s.buttons i { s.buttons i with state := true },
             running := true }

def speed_up_on_click (_i : Int) (s : State) : State :=
  if s.speed_idx + 1 < N_SPEEDS then { s with speed_idx := s.speed_idx + 1 } else s

def speed_down_on_click (_i : Int) (s : State) : State :=
  if s.speed_idx - 1 ≥ 0 then { s with speed_idx := s.speed_idx - 1 } else s

def clear_on_click (_i : Int) (s : State) : State :=
  if s.running = false then
    { s with cells := memset s.cells false (N_CELLS_X * N_CELLS_Y),
             ncells := memset s.ncells false (N_CELLS_X * N_CELLS_Y) }
  else s

/-- The indirect call `buttons[i].on_click(&buttons[i])`; the null pointer is never called
once `init_ui` has run, and is modelled as doing nothing. -/
def call_on_click (i : Int) (s : State) : State :=
  match (s.buttons i).on_click with
  | some handler.play => play_on_click i s
  | some handler.speed_down => speed_down_on_click i s
  | some handler.speed_up => speed_up_on_click i s
  | some handler.clear => clear_on_click i s
  | none => s

/-! ## INITIALIZATION -/

/-- The globals when `init_app` returns: `running` keeps its initializer `FALSE`, every
buffer is zeroed by `calloc`, and `speed_idx` is 2.  The failure paths end the process. -/
def init_app : State :=
  { pixels := fun _ => 0
    cells := fun _ => false
    ncells := fun _ => false
    running := false
    buttons := fun _ =>
      { x := 0, y := 0, pad := 0, scale := 0, state := false,
        icn_true := icon.BUTTON_ON, icn_false := icon.BUTTON_ON, on_click := none }
    speed_idx := 2 }

def init_ui (s : State) : State :=
  let b0 : button :=
    { x := 0, y := WINDOW_HEIGHT - ICON_SIZE, pad := ICON_PAD, scale := 4,
      state := s.running, icn_true := icon.BUTTON_OFF, icn_false := icon.BUTTON_ON,
      on_click := some handler.play }
  let b1 : button :=
    { x := ICON_SIZE, y := WINDOW_HEIGHT - ICON_SIZE, pad := ICON_PAD, scale := 4,
      state := true, icn_true := icon.BUTTON_SPEED_DOWN, icn_false := icon.BUTTON_SPEED_DOWN,
      on_click := some handler.speed_down }
  let b2 : button :=
    { x := ICON_SIZE * 2, y := WINDOW_HEIGHT - ICON_SIZE, pad := ICON_PAD, scale := 4,
      state := true, icn_true := icon.BUTTON_SPEED_UP, icn_false := icon.BUTTON_SPEED_UP,
      on_click := some handler.speed_up }
  let b3 : button :=
    { x := ICON_SIZE * 3, y := WINDOW_HEIGHT - ICON_SIZE, pad := ICON_PAD, scale := 4,
      state := true, icn_true := icon.BUTTON_CLEAR, icn_false := icon.BUTTON_CLEAR,
      on_click := some handler.clear }
  { s with buttons :=
      Function.update (Function.update (Function.update (Function.update s.buttons 0 b0)
        1 b1) 2 b2) 3 b3 }

/-! ## DRAW -/

def clear (pixels : Int → Nat) (c : color) : Int → Nat :=
  (loopVals 0 (WINDOW_HEIGHT * WINDOW_WIDTH) 1).foldl
    (fun px idx => Function.update px idx (color_values c)) pixels

def putpixel (pixels : Int → Nat) (x y : Int) (c : color) : Int → Nat :=
  if x ≥ 0 ∧ x < WINDOW_WIDTH ∧ y ≥ 0 ∧ y < WINDOW_HEIGHT then
    Function.update pixels (arrayIdx x y WINDOW_WIDTH) (color_values c)
  else pixels

def draw_rect (pixels : Int → Nat) (x y w h : Int) (filled : Bool) (c : color) : Int → Nat :=
  (loopVals y (y + h) 1).foldl (fun px cy =>
    (loopVals x (x + w) 1).foldl (fun px cx =>
      if (filled = false ∧ (cx = x ∨ cy = y ∨ cx = (x + w - 1) ∨ cy = (y + h - 1))) ∨
          (filled = true) then
        putpixel px cx cy c
      else px) px) pixels

/-- The loops of `draw_grid`; the state of the fold is the pixel buffer and the running
index `idx`. -/
def draw_grid_loop (cells : Int → Bool) (pixels : Int → Nat) : (Int → Nat) × Int :=
  (loopVals 0 (WINDOW_HEIGHT - ICON_SIZE) CELL_SIZE).foldl (fun st cy =>
    (loopVals 0 WINDOW_WIDTH CELL_SIZE).foldl (fun st cx =>
      (draw_rect st.1 (cx + CELL_PAD) (cy + CELL_PAD) (CELL_SIZE - CELL_PAD)
          (CELL_SIZE - CELL_PAD) (cells st.2) color.WHITE,
        st.2 + 1)) st) (pixels, 0)

def draw_grid (cells : Int → Bool) (pixels : Int → Nat) : Int → Nat :=
  (draw_grid_loop cells pixels).1

def draw_button_icon (pixels : Int → Nat) (x y pad scale : Int) (icn : icon)
    (color_foreground color_background : color) : Int → Nat :=
  (loopVals 0 8 1).foldl (fun px v =>
    (loopVals 0 8 1).foldl (fun px h =>
      let is_on := (((icons icn).getD v.toNat 0) >>> (7 - h).toNat) &&& 0x01
      let cx := x + pad + (h * scale)
      let cy := y + pad + (v * scale)
      (loopVals 0 scale 1).foldl (fun px ny =>
        (loopVals 0 scale 1).foldl (fun px nx =>
          putpixel px (cx + nx) (cy + ny)
            (if is_on ≠ 0 then color_foreground else color_background)) px) px) px) pixels

def draw_ui (buttons : Int → button) (pixels : Int → Nat) : Int → Nat :=
  (loopVals 0 N_BUTTONS 1).foldl (fun px i =>
    let cButton := buttons i
    let icn := if cButton.state = true then cButton.icn_true else cButton.icn_false
    draw_button_icon px cButton.x cButton.y cButton.pad cButton.scale icn
      color.BLACK color.WHITE) pixels

def redraw (s : State) : State :=
  { s with pixels := draw_ui s.buttons (draw_grid s.cells (clear s.pixels color.BLACK)) }

/-! ## SDL -/

/-- The grid check of `on_mouse_event` (lines 426 to 437); the state of the fold is the
`cells` buffer and the running index `idx`. -/
def grid_check (cells : Int → Bool) (px py : Int) : (Int → Bool) × Int :=
  (loopVals 0 (WINDOW_HEIGHT - ICON_SIZE) CELL_SIZE).foldl (fun st cy =>
    (loopVals 0 WINDOW_WIDTH CELL_SIZE).foldl (fun st cx =>
      (if point_in_rectangle px py (cx + CELL_PAD) (cy + CELL_PAD)
            (CELL_SIZE - CELL_PAD) (CELL_SIZE - CELL_PAD) = true then
          Function.update st.1 st.2 (if st.1 st.2 = true then false else true)
        else st.1,
        st.2 + 1)) st) (cells, 0)

/-- The button check of `on_mouse_event` (lines 440 to 450). -/
def button_check (s : State) (px py : Int) : State :=
  (loopVals 0 N_BUTTONS 1).foldl (fun s i =>
    if point_in_rectangle px py (s.buttons i).x (s.buttons i).y ICON_SIZE ICON_SIZE = true then
      call_on_click i s
    else s) s

def on_mouse_event (s : State) (evt : SDL_Event) : State :=
  match evt with
  | SDL_Event.MOUSEMOTION _ _ => s
  | SDL_Event.MOUSEBUTTONUP _ _ => s
  | SDL_Event.MOUSEBUTTONDOWN px py =>
    let s1 := if s.running = false then { s with cells := (grid_check s.cells px py).1 } else s
    button_check s1 px py
  | _ => s

/-! ## MAIN PROGRAM -/

/-- The variables of `main` that live across loop iterations, with the globals. -/
structure MainState where
  globals : State
  frame_next_cells : Int

/-- The program state when the `while(1)` loop is entered (lines 460 to 465). -/
def main_start : MainState :=
  { globals := redraw (init_ui init_app), frame_next_cells := 0 }

/-- The stepping decision of one loop iteration (lines 471 to 479). -/
def step_decision (m : MainState) : MainState :=
  if m.globals.running = true then
    let frame_next_cells := m.frame_next_cells + 1
    if frame_next_cells ≥ speeds_at m.globals.speed_idx then
      { globals := update_cells m.globals, frame_next_cells := 0 }
    else
      { m with frame_next_cells := frame_next_cells }
  else
    { m with frame_next_cells := speeds_at m.globals.speed_idx - 1 }

/-- One loop iteration up to and including `redraw()` (lines 467 to 480). -/
def frame (m : MainState) : MainState :=
  let m1 := step_decision m
  { m1 with globals := redraw m1.globals }

/-- The event drain (lines 481 to 488) on the events `SDL_PollEvent` delivers, in order;
`none` when `SDL_QUIT` ends the program. -/
def poll_events (s : State) : List SDL_Event → Option State
  | [] => some s
  | SDL_Event.QUIT :: _ => none
  | SDL_Event.OTHER :: evs => poll_events s evs
  | evt :: evs => poll_events (on_mouse_event s evt) evs

/-- One iteration of the `while(1)` loop of `main`, given the events pending in it. -/
def loop_iteration (m : MainState) (evs : List SDL_Event) : Option MainState :=
  let m1 := frame m
  match poll_events m1.globals evs with
  | some s => some { m1 with globals := s }
  | none => none

/-- States of the running program: the loop entry, and whatever a stepping-and-redraw phase
or the dispatch of one input event leads to from such a state.  Every state between two
statements of the loop body of `main` is of this kind. -/
inductive Reachable : MainState → Prop where
  | start : Reachable main_start
  | frame (m : MainState) : Reachable m → Reachable (frame m)
  | event (m : MainState) (evt : SDL_Event) : Reachable m →
      Reachable { m with globals := on_mouse_event m.globals evt }

/-! ## Auxiliary definitions for the proofs -/

/-- The cells in the order the double loop of `update_cells` visits them (row-major). -/
def cell_order : List (Int × Int) :=
  (loopVals 0 N_CELLS_Y 1).flatMap (fun y => (loopVals 0 N_CELLS_X 1).map (fun x => (x, y)))

/-- The value `update_cell` leaves in `ncells[arrayIdx x y]`, given the value `old` it had. -/
def next_cell (cells : Int → Bool) (x y : Int) (old : Bool) : Bool :=
  let n := count_neighbors_on cells x y
  if cells (arrayIdx x y N_CELLS_X) = true then
    if n < 2 then false else if n ≤ 3 then true else false
  else
    if n = 3 then true else old

/-- The eight offsets `(dx, dy)` of `{-1, 0, 1}²` other than `(0, 0)`. -/
def offsets : List (Int × Int) :=
  [(-1, -1), (-1, 0), (-1, 1), (0, -1), (0, 1), (1, -1), (1, 0), (1, 1)]

/-- A paused state with the three cells `(4, 5)`, `(5, 5)`, `(6, 5)` alive. -/
def sample_state : State :=
  { init_ui init_app with
    cells := fun k => decide (k = 164 ∨ k = 165 ∨ k = 166) }

/-- The variant of `update_cells` of the step-isolation property: the cells are visited in
the order `order`, neighbours are read from `cells`, results are written to `ncells`, and
`ncells` is copied to `cells` at the end. -/
def update_cells_in_order (order : List (Int × Int)) (s : State) : State :=
  let ncells0 := memset s.ncells false (N_CELLS_X * N_CELLS_Y)
  let ncells1 := order.foldl (fun nc p => update_cell s.cells nc p.1 p.2) ncells0
  { s with ncells := ncells1, cells := memcpy s.cells ncells1 (N_CELLS_X * N_CELLS_Y) }

/-- The buttons have the positions and the handlers `init_ui` gives them (`init_ui` is the
only code that writes these fields). -/
def ui_layout (buttons : Int → button) : Prop :=
  ∀ i ∈ loopVals 0 N_BUTTONS 1,
    (buttons i).x = ((init_ui init_app).buttons i).x ∧
    (buttons i).y = ((init_ui init_app).buttons i).y ∧
    (buttons i).on_click = ((init_ui init_app).buttons i).on_click

/-- The body of the loop of `button_check` for the button `i`. -/
def button_step (px py : Int) (s : State) (i : Int) : State :=
  if point_in_rectangle px py (s.buttons i).x (s.buttons i).y ICON_SIZE ICON_SIZE = true then
    call_on_click i s
  else s

/-- The elements of a list paired with the values a counter takes when it starts at `i0`
and is incremented after each element. -/
def indexed {α : Type} (i0 : Int) : List α → List (Int × α)
  | [] => []
  | a :: l => (i0, a) :: indexed (i0 + 1) l

/-- The top-left corners `(cx, cy)` of the cells in the order the loops of `grid_check` and
`draw_grid` visit them. -/
def corner_order : List (Int × Int) :=
  (loopVals 0 (WINDOW_HEIGHT - ICON_SIZE) CELL_SIZE).flatMap (fun cy =>
    (loopVals 0 WINDOW_WIDTH CELL_SIZE).map (fun cx => (cx, cy)))

/-- The sample state after a click on the Toggle-Play button: `running` is TRUE. -/
def running_state : State := play_on_click 0 sample_state

/-- The state of a cell after a step, from its state and its number of live neighbours, as
`update_cells` computes it into a zeroed `ncells`. -/
def life_rule (alive : Bool) (n : Int) : Bool :=
  if alive = true then
    if n < 2 then false else if n ≤ 3 then true else false
  else
    if n = 3 then true else false

/-- The number of live neighbours of `(u, v)` on the torus when the cell `(a, b)` is alive
exactly when `P a b` holds. -/
def pattern_count (P : Int → Int → Bool) (u v : Int) : Int :=
  (if P ((u + -1) % 32) ((v + -1) % 22) = true then 1 else 0) +
  (if P ((u + -1) % 32) ((v + 0) % 22) = true then 1 else 0) +
  (if P ((u + -1) % 32) ((v + 1) % 22) = true then 1 else 0) +
  (if P ((u + 0) % 32) ((v + -1) % 22) = true then 1 else 0) +
  (if P ((u + 0) % 32) ((v + 1) % 22) = true then 1 else 0) +
  (if P ((u + 1) % 32) ((v + -1) % 22) = true then 1 else 0) +
  (if P ((u + 1) % 32) ((v + 0) % 22) = true then 1 else 0) +
  (if P ((u + 1) % 32) ((v + 1) % 22) = true then 1 else 0)

/-- The pattern `P` moved by `(x, y)` on the torus. -/
def shifted (P : Int → Int → Bool) (x y : Int) : Int → Int → Bool :=
  fun u v => P ((u - x) % 32) ((v - y) % 22)

/-- The horizontal blinker centred at `(0, 0)`: the cells `(31, 0)`, `(0, 0)`, `(1, 0)`. -/
def blinker_h0 (p q : Int) : Bool :=
  decide (q = 0 ∧ (p = 31 ∨ p = 0 ∨ p = 1))

/-- The vertical blinker centred at `(0, 0)`: the cells `(0, 21)`, `(0, 0)`, `(0, 1)`. -/
def blinker_v0 (p q : Int) : Bool :=
  decide (p = 0 ∧ (q = 21 ∨ q = 0 ∨ q = 1))

/-- The grid `cells` holds exactly the horizontal blinker centred at `(x, y)`: the live
cells are `(x-1, y)`, `(x, y)`, `(x+1, y)`, coordinates taken modulo the torus. -/
def horizontal_blinker (x y : Int) (cells : Int → Bool) : Prop :=
  ∀ u v : Int, 0 ≤ u ∧ u < N_CELLS_X → 0 ≤ v ∧ v < N_CELLS_Y →
    (cells (arrayIdx u v N_CELLS_X) = true ↔
      v = y ∧ (u = (x - 1) % N_CELLS_X ∨ u = x ∨ u = (x + 1) % N_CELLS_X))

/-- The grid `cells` holds exactly the vertical blinker centred at `(x, y)`: the live cells
are `(x, y-1)`, `(x, y)`, `(x, y+1)`, coordinates taken modulo the torus. -/
def vertical_blinker (x y : Int) (cells : Int → Bool) : Prop :=
  ∀ u v : Int, 0 ≤ u ∧ u < N_CELLS_X → 0 ≤ v ∧ v < N_CELLS_Y →
    (cells (arrayIdx u v N_CELLS_X) = true ↔
      u = x ∧ (v = (y - 1) % N_CELLS_Y ∨ v = y ∨ v = (y + 1) % N_CELLS_Y))

/-- The program runs `n` loop iterations in which no event is pending. -/
def idle_iterations : Nat → MainState → Option MainState
  | 0, m => some m
  | n + 1, m => (loop_iteration m []).bind (idle_iterations n)

/-- The sample grid at the start of a loop iteration. -/
def sample_main : MainState :=
  { globals := sample_state, frame_next_cells := 0 }

/-- The buffer operation `T` leaves the element `k` as it is. -/
def Skips {β : Type} (k : Int) (T : (Int → β) → (Int → β)) : Prop :=
  ∀ b, T b k = b k

/-- The buffer operation `T` leaves the value `a` in the element `k`. -/
def Sets {β : Type} (k : Int) (a : β) (T : (Int → β) → (Int → β)) : Prop :=
  ∀ b, T b k = a

/-- Two pixel buffers hold the same values in the `640 * 480` pixels of the window. -/
def same_window (b1 b2 : Int → Nat) : Prop :=
  ∀ k : Int, 0 ≤ k ∧ k < WINDOW_HEIGHT * WINDOW_WIDTH → b1 k = b2 k

/-- The colour `draw_button_icon` paints the block of row `v` and column `h` with: the
foreground when bit `7 - h` of `icons[icn][v]` is set, the background otherwise. -/
def icon_color (icn : icon) (v h : Int) (fg bg : color) : color :=
  if ((icons icn).getD v.toNat 0).testBit (7 - h).toNat = true then fg else bg

/-- The stepping decision of the loop iteration that starts in `m` calls `update_cells`
(the conditions of lines 471 and 473). -/
def steps_now (m : MainState) : Bool :=
  m.globals.running && decide (m.frame_next_cells + 1 ≥ speeds_at m.globals.speed_idx)

/-- The number of calls of `update_cells` in the next `n` loop iterations, when no event is
pending in any of them. -/
def step_count : Nat → MainState → Nat
  | 0, _ => 0
  | n + 1, m => (if steps_now m = true then 1 else 0) + step_count n (frame m)

/-- The grid `cells` moved by `(a, b)` with wraparound: the cell `(u, v)` of the result is
the cell `((u - a) mod 32, (v - b) mod 22)` of `cells`. -/
def shift_cells (a b : Int) (cells : Int → Bool) : Int → Bool :=
  fun k =>
    if 0 ≤ k ∧ k < N_CELLS_X * N_CELLS_Y then
      cells (arrayIdx ((k % N_CELLS_X - a) % N_CELLS_X) ((k / N_CELLS_X - b) % N_CELLS_Y)
        N_CELLS_X)
    else cells k

/-! ## Loops -/

theorem loopVals_one (lo hi : Int) :
    loopVals lo hi 1 = (List.range (hi - lo).toNat).map (fun (k : Nat) => lo + (k : Int)) := by
  unfold loopVals
  simp

theorem mem_loopVals_one (lo hi v : Int) : v ∈ loopVals lo hi 1 ↔ lo ≤ v ∧ v < hi := by
  rw [loopVals_one]
  simp only [List.mem_map, List.mem_range]
  constructor
  · rintro ⟨k, hk, rfl⟩
    omega
  · intro h
    refine ⟨(v - lo).toNat, ?_, ?_⟩
    · omega
    · omega

theorem N_CELLS_X_eq : N_CELLS_X = 32 := by decide

theorem N_CELLS_Y_eq : N_CELLS_Y = 22 := by decide

theorem loopVals_offsets : loopVals (-1) 2 1 = [-1, 0, 1] := by decide

/-- A doubly nested loop is one loop over the pairs of values, inner variable first. -/
theorem foldl_nested {α β σ : Type} (f : σ → β → α → σ) (xs : List β) (ys : List α) (s : σ) :
    ys.foldl (fun s y => xs.foldl (fun s x => f s x y) s) s =
      (ys.flatMap (fun y => xs.map (fun x => (x, y)))).foldl (fun s p => f s p.1 p.2) s := by
  induction ys generalizing s with
  | nil => rfl
  | cons y ys ih =>
    simp only [List.foldl_cons, List.flatMap_cons, List.foldl_append, List.foldl_map]
    exact ih _

/-- A loop of single-element writes leaves alone every index that is no write target. -/
theorem foldl_update_of_not_mem {α β : Type} (key : α → Int) (h : α → β → β) (l : List α)
    (buf : Int → β) (k : Int) (hk : ∀ v ∈ l, key v ≠ k) :
    (l.foldl (fun b v => Function.update b (key v) (h v (b (key v)))) buf) k = buf k := by
  induction l generalizing buf with
  | nil => rfl
  | cons a l ih =>
    rw [List.foldl_cons, ih _ (fun v hv => hk v (List.mem_cons_of_mem a hv))]
    exact Function.update_noteq (Ne.symm (hk a (List.mem_cons_self a l))) _ _

/-- A loop of single-element writes with pairwise different targets: the element written
for `v` holds the value computed for `v` from its initial content. -/
theorem foldl_update_of_mem {α β : Type} (key : α → Int) (h : α → β → β) (l : List α)
    (buf : Int → β) (v : α) (hnd : (l.map key).Nodup) (hv : v ∈ l) :
    (l.foldl (fun b v => Function.update b (key v) (h v (b (key v)))) buf) (key v) =
      h v (buf (key v)) := by
  induction l generalizing buf with
  | nil => cases hv
  | cons a l ih =>
    rw [List.map_cons, List.nodup_cons] at hnd
    rw [List.foldl_cons]
    rcases List.mem_cons.mp hv with rfl | hvl
    · rw [foldl_update_of_not_mem]
      · exact Function.update_same _ _ _
      · intro w hw hwk
        exact hnd.1 (hwk ▸ List.mem_map_of_mem key hw)
    · rw [ih _ hnd.2 hvl]
      have hne : key v ≠ key a := fun e => hnd.1 (e ▸ List.mem_map_of_mem key hvl)
      rw [Function.update_noteq hne]

/-! ## The cell order -/

set_option maxRecDepth 100000 in
theorem cell_order_keys :
    cell_order.map (fun p => arrayIdx p.1 p.2 N_CELLS_X) =
      (List.range 704).map (fun (k : Nat) => (k : Int)) := by
  decide!

theorem cell_order_nodup : (cell_order.map (fun p => arrayIdx p.1 p.2 N_CELLS_X)).Nodup := by
  rw [cell_order_keys]
  exact (List.nodup_range 704).map (fun a b h => by exact_mod_cast h)

theorem mem_cell_order (p : Int × Int) :
    p ∈ cell_order ↔ (0 ≤ p.1 ∧ p.1 < 32) ∧ (0 ≤ p.2 ∧ p.2 < 22) := by
  obtain ⟨x, y⟩ := p
  simp only [cell_order, List.mem_flatMap, List.mem_map, mem_loopVals_one, Prod.mk.injEq]
  constructor
  · rintro ⟨b, hb, a, ha, rfl, rfl⟩
    exact ⟨ha, hb⟩
  · rintro ⟨hx, hy⟩
    exact ⟨y, hy, x, hx, rfl, rfl⟩

theorem key_range (k : Int) :
    (∃ p ∈ cell_order, arrayIdx p.1 p.2 N_CELLS_X = k) ↔ 0 ≤ k ∧ k < 704 := by
  constructor
  · rintro ⟨p, hp, rfl⟩
    rw [mem_cell_order] at hp
    simp only [arrayIdx, N_CELLS_X_eq, N_CELLS_Y_eq]
    omega
  · intro h
    refine ⟨(k % 32, k / 32), (mem_cell_order _).mpr ?_, ?_⟩
    · simp only
      omega
    · simp only [arrayIdx, N_CELLS_X_eq, N_CELLS_Y_eq]
      omega

/-! ## update_cells -/

theorem update_cell_eq (cells ncells : Int → Bool) (x y : Int) :
    update_cell cells ncells x y =
      Function.update ncells (arrayIdx x y N_CELLS_X)
        (next_cell cells x y (ncells (arrayIdx x y N_CELLS_X))) := by
  unfold update_cell next_cell
  simp only
  split_ifs <;> simp

theorem update_cells_ncells (s : State) :
    (update_cells s).ncells =
      cell_order.foldl (fun b p => Function.update b (arrayIdx p.1 p.2 N_CELLS_X)
        (next_cell s.cells p.1 p.2 (b (arrayIdx p.1 p.2 N_CELLS_X))))
        (memset s.ncells false (N_CELLS_X * N_CELLS_Y)) := by
  simp only [update_cells, update_cell_eq]
  exact foldl_nested (fun (nc : Int → Bool) x y => Function.update nc (arrayIdx x y N_CELLS_X)
    (next_cell s.cells x y (nc (arrayIdx x y N_CELLS_X)))) _ _ _

theorem update_cells_cells (s : State) :
    (update_cells s).cells = memcpy s.cells (update_cells s).ncells (N_CELLS_X * N_CELLS_Y) := rfl

/-- The value of every cell after `update_cells`. -/
theorem update_cells_apply (s : State) (x y : Int) (hx : 0 ≤ x ∧ x < 32) (hy : 0 ≤ y ∧ y < 22) :
    (update_cells s).cells (arrayIdx x y N_CELLS_X) = next_cell s.cells x y false := by
  have hk : 0 ≤ arrayIdx x y N_CELLS_X ∧ arrayIdx x y N_CELLS_X < N_CELLS_X * N_CELLS_Y := by
    simp only [arrayIdx, N_CELLS_X_eq, N_CELLS_Y_eq]
    omega
  rw [update_cells_cells]
  simp only [memcpy, hk, and_self, if_true]
  rw [update_cells_ncells]
  rw [foldl_update_of_mem (fun p : Int × Int => arrayIdx p.1 p.2 N_CELLS_X)
    (fun p old => next_cell s.cells p.1 p.2 old) cell_order _ (x, y) cell_order_nodup
    ((mem_cell_order _).mpr ⟨hx, hy⟩)]
  simp only [memset, hk, and_self, if_true]

theorem update_cells_outside (s : State) (k : Int) (hk : ¬ (0 ≤ k ∧ k < 704)) :
    (update_cells s).cells k = s.cells k := by
  rw [update_cells_cells]
  have : ¬ (0 ≤ k ∧ k < N_CELLS_X * N_CELLS_Y) := hk
  simp only [memcpy, this, if_false]

/-! ## count_neighbors_on -/

theorem neighbor_idx_eq_mod (x y dx dy : Int) (hx : 0 ≤ x ∧ x < 32) (hy : 0 ≤ y ∧ y < 22)
    (hdx : -1 ≤ dx ∧ dx ≤ 1) (hdy : -1 ≤ dy ∧ dy ≤ 1) :
    neighbor_idx x y dx dy = arrayIdx ((x + dx) % 32) ((y + dy) % 22) 32 := by
  have h1 : (if (if x + dx ≥ 32 then 0 else x + dx) < 0 then 32 - 1
      else (if x + dx ≥ 32 then 0 else x + dx)) = (x + dx) % 32 := by
    split_ifs <;> omega
  have h2 : (if (if y + dy ≥ 22 then 0 else y + dy) < 0 then 22 - 1
      else (if y + dy ≥ 22 then 0 else y + dy)) = (y + dy) % 22 := by
    split_ifs <;> omega
  simp only [neighbor_idx, N_CELLS_X_eq, N_CELLS_Y_eq]
  rw [h1, h2]

theorem neighbor_idx_bounds (x y dx dy : Int) (hx : 0 ≤ x ∧ x < 32) (hy : 0 ≤ y ∧ y < 22)
    (hdx : -1 ≤ dx ∧ dx ≤ 1) (hdy : -1 ≤ dy ∧ dy ≤ 1) :
    0 ≤ neighbor_idx x y dx dy ∧ neighbor_idx x y dx dy < 704 := by
  rw [neighbor_idx_eq_mod x y dx dy hx hy hdx hdy]
  simp only [arrayIdx]
  omega

/-- The count as the sum over the eight offsets, in the order the loops visit them. -/
theorem count_neighbors_on_sum (cells : Int → Bool) (x y : Int) :
    count_neighbors_on cells x y =
      (if cells (neighbor_idx x y (-1) (-1)) = true then 1 else 0) +
      (if cells (neighbor_idx x y (-1) 0) = true then 1 else 0) +
      (if cells (neighbor_idx x y (-1) 1) = true then 1 else 0) +
      (if cells (neighbor_idx x y 0 (-1)) = true then 1 else 0) +
      (if cells (neighbor_idx x y 0 1) = true then 1 else 0) +
      (if cells (neighbor_idx x y 1 (-1)) = true then 1 else 0) +
      (if cells (neighbor_idx x y 1 0) = true then 1 else 0) +
      (if cells (neighbor_idx x y 1 1) = true then 1 else 0) := by
  simp only [count_neighbors_on, loopVals_offsets, List.foldl_cons, List.foldl_nil, ne_eq,
    one_ne_zero, neg_eq_zero, not_false_eq_true, not_true_eq_false, or_true, true_or, or_self,
    if_true, if_false]
  generalize cells (neighbor_idx x y (-1) (-1)) = b1
  generalize cells (neighbor_idx x y (-1) 0) = b2
  generalize cells (neighbor_idx x y (-1) 1) = b3
  generalize cells (neighbor_idx x y 0 (-1)) = b4
  generalize cells (neighbor_idx x y 0 1) = b5
  generalize cells (neighbor_idx x y 1 (-1)) = b6
  generalize cells (neighbor_idx x y 1 0) = b7
  generalize cells (neighbor_idx x y 1 1) = b8
  cases b1 <;> cases b2 <;> cases b3 <;> cases b4 <;> cases b5 <;> cases b6 <;> cases b7 <;>
    cases b8 <;> decide

/-- C2: for a cell `(x, y)` of the grid, `count_neighbors_on` is the number of the eight
offsets whose cell, taken modulo `(32, 22)`, is alive; every index it reads is inside the
buffer; and the cell `(31, 21)` is read as the `(-1, -1)` neighbour of `(0, 0)`, so that it
adds one to the count of `(0, 0)` exactly when it is alive. -/
theorem count_neighbors_on_toroidal (cells : Int → Bool) :
    (∀ x y : Int, 0 ≤ x ∧ x < N_CELLS_X → 0 ≤ y ∧ y < N_CELLS_Y →
      count_neighbors_on cells x y =
          ((offsets.filter (fun d =>
            cells (arrayIdx ((x + d.1) % N_CELLS_X) ((y + d.2) % N_CELLS_Y) N_CELLS_X))).length
              : Int) ∧
        ∀ dx ∈ loopVals (-1) 2 1, ∀ dy ∈ loopVals (-1) 2 1,
          0 ≤ neighbor_idx x y dx dy ∧ neighbor_idx x y dx dy < N_CELLS_X * N_CELLS_Y) ∧
    neighbor_idx 0 0 (-1) (-1) = arrayIdx 31 21 N_CELLS_X ∧
    (cells (arrayIdx 31 21 N_CELLS_X) = true → 1 ≤ count_neighbors_on cells 0 0) ∧
    count_neighbors_on (Function.update cells (arrayIdx 31 21 N_CELLS_X) true) 0 0 =
      count_neighbors_on (Function.update cells (arrayIdx 31 21 N_CELLS_X) false) 0 0 + 1 := by
  refine ⟨?_, by decide, ?_, ?_⟩
  · intro x y hx hy
    have hx' : 0 ≤ x ∧ x < 32 := hx
    have hy' : 0 ≤ y ∧ y < 22 := hy
    constructor
    · have e := fun dx dy h1 h2 => neighbor_idx_eq_mod x y dx dy hx' hy' h1 h2
      rw [count_neighbors_on_sum, e (-1) (-1) (by decide) (by decide),
        e (-1) 0 (by decide) (by decide), e (-1) 1 (by decide) (by decide),
        e 0 (-1) (by decide) (by decide), e 0 1 (by decide) (by decide),
        e 1 (-1) (by decide) (by decide), e 1 0 (by decide) (by decide),
        e 1 1 (by decide) (by decide)]
      simp only [offsets, N_CELLS_X_eq, N_CELLS_Y_eq, List.filter_cons, List.filter_nil]
      generalize cells (arrayIdx ((x + -1) % 32) ((y + -1) % 22) 32) = b1
      generalize cells (arrayIdx ((x + -1) % 32) ((y + 0) % 22) 32) = b2
      generalize cells (arrayIdx ((x + -1) % 32) ((y + 1) % 22) 32) = b3
      generalize cells (arrayIdx ((x + 0) % 32) ((y + -1) % 22) 32) = b4
      generalize cells (arrayIdx ((x + 0) % 32) ((y + 1) % 22) 32) = b5
      generalize cells (arrayIdx ((x + 1) % 32) ((y + -1) % 22) 32) = b6
      generalize cells (arrayIdx ((x + 1) % 32) ((y + 0) % 22) 32) = b7
      generalize cells (arrayIdx ((x + 1) % 32) ((y + 1) % 22) 32) = b8
      cases b1 <;> cases b2 <;> cases b3 <;> cases b4 <;> cases b5 <;> cases b6 <;>
        cases b7 <;> cases b8 <;> decide
    · intro dx hdx dy hdy
      rw [mem_loopVals_one] at hdx hdy
      exact neighbor_idx_bounds x y dx dy hx' hy' (by omega) (by omega)
  · intro h
    rw [count_neighbors_on_sum]
    have h' : cells (neighbor_idx 0 0 (-1) (-1)) = true := h
    rw [if_pos h']
    split_ifs <;> omega
  · simp only [count_neighbors_on_sum]
    have e : ∀ dx dy : Int, neighbor_idx 0 0 dx dy ≠ arrayIdx 31 21 N_CELLS_X →
        ∀ b, Function.update cells (arrayIdx 31 21 N_CELLS_X) b (neighbor_idx 0 0 dx dy) =
          cells (neighbor_idx 0 0 dx dy) := fun dx dy hne b => Function.update_noteq hne _ _
    rw [e (-1) 0 (by decide), e (-1) 1 (by decide), e 0 (-1) (by decide), e 0 1 (by decide),
      e 1 (-1) (by decide), e 1 0 (by decide), e 1 1 (by decide),
      e (-1) 0 (by decide), e (-1) 1 (by decide), e 0 (-1) (by decide), e 0 1 (by decide),
      e 1 (-1) (by decide), e 1 0 (by decide), e 1 1 (by decide)]
    have e0 : neighbor_idx 0 0 (-1) (-1) = arrayIdx 31 21 N_CELLS_X := by decide
    rw [e0, Function.update_same, Function.update_same]
    simp only [if_true, Bool.false_eq_true, if_false]
    omega

/-- C2 at the corner cell `(0, 0)` of the sample grid. -/
theorem count_neighbors_on_toroidal_witness :
    (0 ≤ (0 : Int) ∧ (0 : Int) < N_CELLS_X) ∧ (0 ≤ (0 : Int) ∧ (0 : Int) < N_CELLS_Y) ∧
    count_neighbors_on sample_state.cells 0 0 =
        ((offsets.filter (fun d => sample_state.cells
          (arrayIdx ((0 + d.1) % N_CELLS_X) ((0 + d.2) % N_CELLS_Y) N_CELLS_X))).length : Int) ∧
      ∀ dx ∈ loopVals (-1) 2 1, ∀ dy ∈ loopVals (-1) 2 1,
        0 ≤ neighbor_idx 0 0 dx dy ∧ neighbor_idx 0 0 dx dy < N_CELLS_X * N_CELLS_Y :=
  ⟨by decide, by decide,
    (count_neighbors_on_toroidal sample_state.cells).1 0 0 (by decide) (by decide)⟩

/-! ## update_cells -/

/-- C1: after `update_cells` a cell of the grid is alive exactly when it was alive with two
or three live neighbours, or dead with exactly three, the neighbours being counted on the
grid as it was before the call. -/
theorem update_cells_rule (s : State) (x y : Int) (hx : 0 ≤ x ∧ x < 32)
    (hy : 0 ≤ y ∧ y < 22) :
    (update_cells s).cells (arrayIdx x y N_CELLS_X) = true ↔
      (s.cells (arrayIdx x y N_CELLS_X) = true ∧
          (count_neighbors_on s.cells x y = 2 ∨ count_neighbors_on s.cells x y = 3)) ∨
        (s.cells (arrayIdx x y N_CELLS_X) = false ∧ count_neighbors_on s.cells x y = 3) := by
  rw [update_cells_apply s x y hx hy]
  unfold next_cell
  simp only
  split_ifs with h1 h2 h3 h4 <;> simp [h1] <;> omega

/-- C1 at the cell `(5, 4)` of the sample grid, which is born. -/
theorem update_cells_rule_witness :
    (0 ≤ (5 : Int) ∧ (5 : Int) < 32) ∧ (0 ≤ (4 : Int) ∧ (4 : Int) < 22) ∧
    ((update_cells sample_state).cells (arrayIdx 5 4 N_CELLS_X) = true ↔
      (sample_state.cells (arrayIdx 5 4 N_CELLS_X) = true ∧
          (count_neighbors_on sample_state.cells 5 4 = 2 ∨
            count_neighbors_on sample_state.cells 5 4 = 3)) ∨
        (sample_state.cells (arrayIdx 5 4 N_CELLS_X) = false ∧
          count_neighbors_on sample_state.cells 5 4 = 3)) :=
  ⟨by decide, by decide, update_cells_rule sample_state 5 4 (by decide) (by decide)⟩

/-! ## Step isolation -/

/-- The double loop of `update_cells` visits the cells in row-major order. -/
theorem update_cells_eq_in_order (s : State) :
    update_cells s = update_cells_in_order cell_order s := by
  have h := foldl_nested (fun (nc : Int → Bool) x y => update_cell s.cells nc x y)
    (loopVals 0 N_CELLS_X 1) (loopVals 0 N_CELLS_Y 1)
    (memset s.ncells false (N_CELLS_X * N_CELLS_Y))
  simp only [update_cells, update_cells_in_order, cell_order]
  rw [h]

theorem fold_update_cell_eq (cells : Int → Bool) (order : List (Int × Int))
    (nc : Int → Bool) :
    order.foldl (fun nc p => update_cell cells nc p.1 p.2) nc =
      order.foldl (fun b p => Function.update b (arrayIdx p.1 p.2 N_CELLS_X)
        (next_cell cells p.1 p.2 (b (arrayIdx p.1 p.2 N_CELLS_X)))) nc := by
  simp only [update_cell_eq]

/-- Whatever the order, as long as it visits the cells of the grid once each, the scratch
buffer ends with the same content. -/
theorem fold_update_cell_perm (cells nc : Int → Bool) (order : List (Int × Int))
    (hp : order.Perm cell_order) :
    order.foldl (fun nc p => update_cell cells nc p.1 p.2) nc =
      cell_order.foldl (fun nc p => update_cell cells nc p.1 p.2) nc := by
  have hnd : (order.map (fun p : Int × Int => arrayIdx p.1 p.2 N_CELLS_X)).Nodup :=
    ((hp.map _).nodup_iff).mpr cell_order_nodup
  rw [fold_update_cell_eq, fold_update_cell_eq]
  funext k
  by_cases hk : ∃ p ∈ cell_order, arrayIdx p.1 p.2 N_CELLS_X = k
  · obtain ⟨p, hpm, rfl⟩ := hk
    rw [foldl_update_of_mem (fun p : Int × Int => arrayIdx p.1 p.2 N_CELLS_X)
        (fun p old => next_cell cells p.1 p.2 old) order nc p hnd (hp.mem_iff.mpr hpm),
      foldl_update_of_mem (fun p : Int × Int => arrayIdx p.1 p.2 N_CELLS_X)
        (fun p old => next_cell cells p.1 p.2 old) cell_order nc p cell_order_nodup hpm]
  · rw [foldl_update_of_not_mem (fun p : Int × Int => arrayIdx p.1 p.2 N_CELLS_X)
        (fun p old => next_cell cells p.1 p.2 old) order nc k
        (fun v hv e => hk ⟨v, hp.mem_iff.mp hv, e⟩),
      foldl_update_of_not_mem (fun p : Int × Int => arrayIdx p.1 p.2 N_CELLS_X)
        (fun p old => next_cell cells p.1 p.2 old) cell_order nc k
        (fun v hv e => hk ⟨v, hv, e⟩)]

/-- C3 (step isolation): visiting the cells in any permutation of the row-major order,
reading neighbours from `cells`, writing to `ncells` and copying `ncells` to `cells` at the
end, gives exactly the buffers `update_cells` gives. -/
theorem update_cells_order_independent (s : State) (order : List (Int × Int))
    (hp : order.Perm cell_order) :
    (update_cells_in_order order s).cells = (update_cells s).cells ∧
      update_cells_in_order order s = update_cells s := by
  have h : update_cells_in_order order s = update_cells s := by
    rw [update_cells_eq_in_order]
    simp only [update_cells_in_order]
    rw [fold_update_cell_perm s.cells _ order hp]
  exact ⟨by rw [h], h⟩

/-- C3 for the reverse of the row-major order on the sample grid. -/
theorem update_cells_order_independent_witness :
    cell_order.reverse.Perm cell_order ∧
    (update_cells_in_order cell_order.reverse sample_state).cells =
        (update_cells sample_state).cells ∧
      update_cells_in_order cell_order.reverse sample_state = update_cells sample_state :=
  ⟨List.reverse_perm cell_order,
    update_cells_order_independent sample_state cell_order.reverse
      (List.reverse_perm cell_order)⟩

/-! ## The empty grid -/

theorem count_neighbors_on_all_dead (cells : Int → Bool)
    (hdead : ∀ k : Int, 0 ≤ k ∧ k < 704 → cells k = false) (x y : Int)
    (hx : 0 ≤ x ∧ x < 32) (hy : 0 ≤ y ∧ y < 22) : count_neighbors_on cells x y = 0 := by
  have e := fun dx dy h1 h2 => hdead _ (neighbor_idx_bounds x y dx dy hx hy h1 h2)
  rw [count_neighbors_on_sum, e (-1) (-1) (by decide) (by decide),
    e (-1) 0 (by decide) (by decide), e (-1) 1 (by decide) (by decide),
    e 0 (-1) (by decide) (by decide), e 0 1 (by decide) (by decide),
    e 1 (-1) (by decide) (by decide), e 1 0 (by decide) (by decide),
    e 1 1 (by decide) (by decide)]
  decide

/-- The all-dead grid is a fixed point of `update_cells`. -/
theorem update_cells_all_dead (s : State)
    (hdead : ∀ k : Int, 0 ≤ k ∧ k < 704 → s.cells k = false) (k : Int)
    (hk : 0 ≤ k ∧ k < 704) : (update_cells s).cells k = false := by
  have hidx : arrayIdx (k % 32) (k / 32) N_CELLS_X = k := by
    simp only [arrayIdx, N_CELLS_X_eq]
    omega
  have hx : 0 ≤ k % 32 ∧ k % 32 < 32 := by omega
  have hy : 0 ≤ k / 32 ∧ k / 32 < 22 := by omega
  rw [← hidx, update_cells_apply s _ _ hx hy]
  unfold next_cell
  simp only [hidx, hdead k hk, count_neighbors_on_all_dead s.cells hdead _ _ hx hy]
  decide

theorem clear_on_click_cells (i : Int) (s : State) (hrun : s.running = false) (k : Int)
    (hk : 0 ≤ k ∧ k < 704) : (clear_on_click i s).cells k = false := by
  have hk' : 0 ≤ k ∧ k < N_CELLS_X * N_CELLS_Y := hk
  simp only [clear_on_click, hrun, if_true, memset, hk', and_self]

/-- C4: with `running` FALSE, `clear_on_click` followed by `update_cells` leaves every cell
of the grid dead: by index, and by coordinates. -/
theorem clear_then_update_all_dead (s : State) (i : Int) (hrun : s.running = false) :
    (∀ k : Int, 0 ≤ k ∧ k < N_CELLS_X * N_CELLS_Y →
      (update_cells (clear_on_click i s)).cells k = false) ∧
    (∀ x y : Int, 0 ≤ x ∧ x < N_CELLS_X → 0 ≤ y ∧ y < N_CELLS_Y →
      (update_cells (clear_on_click i s)).cells (arrayIdx x y N_CELLS_X) = false) := by
  have h : ∀ k : Int, 0 ≤ k ∧ k < 704 →
      (update_cells (clear_on_click i s)).cells k = false :=
    fun k hk => update_cells_all_dead _ (clear_on_click_cells i s hrun) k hk
  refine ⟨fun k hk => h k hk, fun x y hx hy => h _ ?_⟩
  have hx' : 0 ≤ x ∧ x < 32 := hx
  have hy' : 0 ≤ y ∧ y < 22 := hy
  simp only [arrayIdx, N_CELLS_X_eq]
  omega

/-- C4 on the sample grid, cleared through the Clear button (button 3). -/
theorem clear_then_update_all_dead_witness :
    sample_state.running = false ∧
    (∀ k : Int, 0 ≤ k ∧ k < N_CELLS_X * N_CELLS_Y →
      (update_cells (clear_on_click 3 sample_state)).cells k = false) ∧
    (∀ x y : Int, 0 ≤ x ∧ x < N_CELLS_X → 0 ≤ y ∧ y < N_CELLS_Y →
      (update_cells (clear_on_click 3 sample_state)).cells (arrayIdx x y N_CELLS_X) = false) :=
  ⟨rfl, clear_then_update_all_dead sample_state 3 rfl⟩

/-! ## Hit testing -/

theorem point_in_rectangle_iff (px py rx ry rw rh : Int) :
    point_in_rectangle px py rx ry rw rh = true ↔
      (rx < px ∧ px < rx + rw) ∧ (ry < py ∧ py < ry + rh) := by
  simp only [point_in_rectangle, gt_iff_lt, Bool.and_eq_true, decide_eq_true_eq,
    Bool.if_true_left, Bool.or_false, Bool.and_eq_true]
  tauto

/-- C8: `point_in_rectangle` is TRUE exactly for `rx < px < rx+rw` and `ry < py < ry+rh`;
a point on any of the four edges is outside. -/
theorem point_in_rectangle_strict (px py rx ry rw rh : Int) :
    (point_in_rectangle px py rx ry rw rh = true ↔
      (rx < px ∧ px < rx + rw) ∧ (ry < py ∧ py < ry + rh)) ∧
    point_in_rectangle rx py rx ry rw rh = false ∧
    point_in_rectangle (rx + rw) py rx ry rw rh = false ∧
    point_in_rectangle px ry rx ry rw rh = false ∧
    point_in_rectangle px (ry + rh) rx ry rw rh = false := by
  refine ⟨point_in_rectangle_iff _ _ _ _ _ _, ?_, ?_, ?_, ?_⟩ <;>
    rw [← Bool.not_eq_true, point_in_rectangle_iff] <;> omega

/-! ## The button check -/

theorem loopVals_buttons : loopVals 0 N_BUTTONS 1 = [0, 1, 2, 3] := by decide

theorem ICON_SIZE_eq : ICON_SIZE = 40 := rfl

theorem ui_layout_iff (buttons : Int → button) :
    ui_layout buttons ↔
      ((buttons 0).x = 0 ∧ (buttons 0).y = 440 ∧ (buttons 0).on_click = some handler.play) ∧
      ((buttons 1).x = 40 ∧ (buttons 1).y = 440 ∧
        (buttons 1).on_click = some handler.speed_down) ∧
      ((buttons 2).x = 80 ∧ (buttons 2).y = 440 ∧
        (buttons 2).on_click = some handler.speed_up) ∧
      ((buttons 3).x = 120 ∧ (buttons 3).y = 440 ∧
        (buttons 3).on_click = some handler.clear) := by
  simp only [ui_layout, loopVals_buttons, List.forall_mem_cons, List.not_mem_nil,
    IsEmpty.forall_iff, implies_true, and_true]
  have e0 : (init_ui init_app).buttons 0 =
      { x := 0, y := 440, pad := 5, scale := 4, state := false,
        icn_true := icon.BUTTON_OFF, icn_false := icon.BUTTON_ON,
        on_click := some handler.play } := by decide
  have e1 : (init_ui init_app).buttons 1 =
      { x := 40, y := 440, pad := 5, scale := 4, state := true,
        icn_true := icon.BUTTON_SPEED_DOWN, icn_false := icon.BUTTON_SPEED_DOWN,
        on_click := some handler.speed_down } := by decide
  have e2 : (init_ui init_app).buttons 2 =
      { x := 80, y := 440, pad := 5, scale := 4, state := true,
        icn_true := icon.BUTTON_SPEED_UP, icn_false := icon.BUTTON_SPEED_UP,
        on_click := some handler.speed_up } := by decide
  have e3 : (init_ui init_app).buttons 3 =
      { x := 120, y := 440, pad := 5, scale := 4, state := true,
        icn_true := icon.BUTTON_CLEAR, icn_false := icon.BUTTON_CLEAR,
        on_click := some handler.clear } := by decide
  rw [e0, e1, e2, e3]

theorem ui_layout_init_ui (s : State) : ui_layout (init_ui s).buttons := by
  rw [ui_layout_iff]
  simp [init_ui, Function.update]
  decide

theorem button_check_steps (s : State) (px py : Int) :
    button_check s px py =
      button_step px py (button_step px py (button_step px py (button_step px py s 0) 1) 2) 3 := by
  simp only [button_check, loopVals_buttons, List.foldl_cons, List.foldl_nil, button_step]

theorem call_on_click_layout (i : Int) (s : State) (hl : ui_layout s.buttons) :
    ui_layout (call_on_click i s).buttons := by
  have hplay : ui_layout (play_on_click i s).buttons := by
    intro j hj
    have h := hl j hj
    unfold play_on_click
    split_ifs <;>
    · by_cases hji : j = i
      · subst hji
        simp only [Function.update_same]
        exact h
      · simp only [Function.update_noteq hji]
        exact h
  unfold call_on_click
  split
  · exact hplay
  · unfold speed_down_on_click
    split_ifs <;> exact hl
  · unfold speed_up_on_click
    split_ifs <;> exact hl
  · unfold clear_on_click
    split_ifs <;> exact hl
  · exact hl

theorem button_step_layout (px py : Int) (s : State) (i : Int) (hl : ui_layout s.buttons) :
    ui_layout (button_step px py s i).buttons := by
  unfold button_step
  split_ifs
  · exact call_on_click_layout i s hl
  · exact hl

theorem button_step_zero (px py : Int) (s : State) (hl : ui_layout s.buttons) :
    button_step px py s 0 =
      if point_in_rectangle px py 0 440 40 40 = true then play_on_click 0 s else s := by
  obtain ⟨⟨x0, y0, c0⟩, -⟩ := (ui_layout_iff _).mp hl
  simp only [button_step, x0, y0, ICON_SIZE_eq, call_on_click, c0]

theorem button_step_one (px py : Int) (s : State) (hl : ui_layout s.buttons) :
    button_step px py s 1 =
      if point_in_rectangle px py 40 440 40 40 = true then speed_down_on_click 1 s else s := by
  obtain ⟨-, ⟨x1, y1, c1⟩, -⟩ := (ui_layout_iff _).mp hl
  simp only [button_step, x1, y1, ICON_SIZE_eq, call_on_click, c1]

theorem button_step_two (px py : Int) (s : State) (hl : ui_layout s.buttons) :
    button_step px py s 2 =
      if point_in_rectangle px py 80 440 40 40 = true then speed_up_on_click 2 s else s := by
  obtain ⟨-, -, ⟨x2, y2, c2⟩, -⟩ := (ui_layout_iff _).mp hl
  simp only [button_step, x2, y2, ICON_SIZE_eq, call_on_click, c2]

theorem button_step_three (px py : Int) (s : State) (hl : ui_layout s.buttons) :
    button_step px py s 3 =
      if point_in_rectangle px py 120 440 40 40 = true then clear_on_click 3 s else s := by
  obtain ⟨-, -, -, ⟨x3, y3, c3⟩⟩ := (ui_layout_iff _).mp hl
  simp only [button_step, x3, y3, ICON_SIZE_eq, call_on_click, c3]

/-- With the buttons where `init_ui` puts them, a pointer-down event calls the handler of
the one button whose hit region holds the point, if there is one. -/
theorem button_check_eq (s : State) (px py : Int) (hl : ui_layout s.buttons) :
    button_check s px py =
      if point_in_rectangle px py 0 440 40 40 = true then play_on_click 0 s
      else if point_in_rectangle px py 40 440 40 40 = true then speed_down_on_click 1 s
      else if point_in_rectangle px py 80 440 40 40 = true then speed_up_on_click 2 s
      else if point_in_rectangle px py 120 440 40 40 = true then clear_on_click 3 s
      else s := by
  have l0 := button_step_layout px py s 0 hl
  have l1 := button_step_layout px py _ 1 l0
  have l2 := button_step_layout px py _ 2 l1
  rw [button_check_steps, button_step_three px py _ l2, button_step_two px py _ l1,
    button_step_one px py _ l0, button_step_zero px py s hl]
  have d01 : point_in_rectangle px py 0 440 40 40 = true →
      point_in_rectangle px py 40 440 40 40 = false ∧
      point_in_rectangle px py 80 440 40 40 = false ∧
      point_in_rectangle px py 120 440 40 40 = false := by
    intro h
    rw [point_in_rectangle_iff] at h
    simp only [← Bool.not_eq_true, point_in_rectangle_iff]
    omega
  have d12 : point_in_rectangle px py 40 440 40 40 = true →
      point_in_rectangle px py 80 440 40 40 = false ∧
      point_in_rectangle px py 120 440 40 40 = false := by
    intro h
    rw [point_in_rectangle_iff] at h
    simp only [← Bool.not_eq_true, point_in_rectangle_iff]
    omega
  have d23 : point_in_rectangle px py 80 440 40 40 = true →
      point_in_rectangle px py 120 440 40 40 = false := by
    intro h
    rw [point_in_rectangle_iff] at h
    simp only [← Bool.not_eq_true, point_in_rectangle_iff]
    omega
  by_cases h0 : point_in_rectangle px py 0 440 40 40 = true
  · obtain ⟨n1, n2, n3⟩ := d01 h0
    simp only [h0, n1, n2, n3, if_true, Bool.false_eq_true, if_false]
  · by_cases h1 : point_in_rectangle px py 40 440 40 40 = true
    · obtain ⟨n2, n3⟩ := d12 h1
      simp only [h0, h1, n2, n3, if_true, Bool.false_eq_true, if_false]
    · by_cases h2 : point_in_rectangle px py 80 440 40 40 = true
      · have n3 := d23 h2
        simp only [h0, h1, h2, n3, if_true, Bool.false_eq_true, if_false]
      · simp only [h0, h1, h2, Bool.false_eq_true, if_false]

/-! ## Toggle guard -/

theorem play_on_click_cells (i : Int) (s : State) : (play_on_click i s).cells = s.cells := by
  unfold play_on_click
  split_ifs <;> rfl

theorem speed_up_on_click_cells (i : Int) (s : State) :
    (speed_up_on_click i s).cells = s.cells := by
  unfold speed_up_on_click
  split_ifs <;> rfl

theorem speed_down_on_click_cells (i : Int) (s : State) :
    (speed_down_on_click i s).cells = s.cells := by
  unfold speed_down_on_click
  split_ifs <;> rfl

/-- C5 (toggle guard): with the buttons laid out by `init_ui`, a pointer-down event that
finds `running` TRUE leaves the `cells` buffer as it was, wherever the pointer is. -/
theorem on_mouse_event_running_cells (s : State) (px py : Int)
    (hl : ui_layout s.buttons) (hrun : s.running = true) :
    (on_mouse_event s (SDL_Event.MOUSEBUTTONDOWN px py)).cells = s.cells := by
  simp only [on_mouse_event, hrun, Bool.true_eq_false, if_false]
  rw [button_check_eq s px py hl]
  split_ifs
  · exact play_on_click_cells 0 s
  · exact speed_down_on_click_cells 1 s
  · exact speed_up_on_click_cells 2 s
  · simp only [clear_on_click, hrun, Bool.true_eq_false, if_false]
  · rfl

theorem on_mouse_event_running_cells_witness :
    ui_layout running_state.buttons ∧ running_state.running = true ∧
    (on_mouse_event running_state (SDL_Event.MOUSEBUTTONDOWN 20 460)).cells =
      running_state.cells :=
  ⟨(ui_layout_iff _).mpr (by decide), rfl,
    on_mouse_event_running_cells running_state 20 460 ((ui_layout_iff _).mpr (by decide)) rfl⟩

/-! ## The grid check -/

/-- A loop that increments a counter after each element is a loop over the elements paired
with the counter values. -/
theorem foldl_counter {α σ : Type} (g : σ → Int → α → σ) (l : List α) (b : σ) (i0 : Int) :
    l.foldl (fun st v => (g st.1 st.2 v, st.2 + 1)) (b, i0) =
      ((indexed i0 l).foldl (fun b p => g b p.1 p.2) b, i0 + l.length) := by
  induction l generalizing b i0 with
  | nil => simp [indexed]
  | cons a l ih =>
    simp only [List.foldl_cons, indexed, List.length_cons]
    rw [ih]
    congr 1
    push_cast
    ring

set_option maxRecDepth 100000 in
theorem indexed_corner_order :
    indexed 0 corner_order =
      cell_order.map (fun p => (arrayIdx p.1 p.2 N_CELLS_X, (CELL_SIZE * p.1, CELL_SIZE * p.2))) := by
  decide!

set_option maxRecDepth 100000 in
theorem corner_order_length : (0 : Int) + (corner_order.length : Int) = 704 := by
  decide!

/-- The grid check as one loop over the cells of the grid. -/
theorem grid_check_eq (cells : Int → Bool) (px py : Int) :
    grid_check cells px py =
      (cell_order.foldl (fun b p => Function.update b (arrayIdx p.1 p.2 N_CELLS_X)
        (if point_in_rectangle px py (20 * p.1 + 2) (20 * p.2 + 2) 18 18 = true then
          (if b (arrayIdx p.1 p.2 N_CELLS_X) = true then false else true)
        else b (arrayIdx p.1 p.2 N_CELLS_X))) cells, 704) := by
  have h := foldl_nested (fun (st : (Int → Bool) × Int) cx cy =>
      ((if point_in_rectangle px py (cx + CELL_PAD) (cy + CELL_PAD)
            (CELL_SIZE - CELL_PAD) (CELL_SIZE - CELL_PAD) = true then
          Function.update st.1 st.2 (if st.1 st.2 = true then false else true)
        else st.1), st.2 + 1))
    (loopVals 0 WINDOW_WIDTH CELL_SIZE) (loopVals 0 (WINDOW_HEIGHT - ICON_SIZE) CELL_SIZE)
    (cells, 0)
  have h2 := foldl_counter (fun (b : Int → Bool) (idx : Int) (p : Int × Int) =>
      (if point_in_rectangle px py (p.1 + CELL_PAD) (p.2 + CELL_PAD)
            (CELL_SIZE - CELL_PAD) (CELL_SIZE - CELL_PAD) = true then
          Function.update b idx (if b idx = true then false else true)
        else b)) corner_order cells 0
  unfold grid_check
  rw [h]
  change corner_order.foldl _ _ = _
  rw [h2, indexed_corner_order, List.foldl_map, corner_order_length]
  rw [Prod.mk.injEq]
  refine ⟨?_, rfl⟩
  refine congrArg (fun f => List.foldl f cells cell_order) ?_
  funext b p
  show (if point_in_rectangle px py (20 * p.1 + 2) (20 * p.2 + 2) 18 18 = true then
      Function.update b (arrayIdx p.1 p.2 N_CELLS_X)
        (if b (arrayIdx p.1 p.2 N_CELLS_X) = true then false else true)
    else b) =
    Function.update b (arrayIdx p.1 p.2 N_CELLS_X)
      (if point_in_rectangle px py (20 * p.1 + 2) (20 * p.2 + 2) 18 18 = true then
        (if b (arrayIdx p.1 p.2 N_CELLS_X) = true then false else true)
      else b (arrayIdx p.1 p.2 N_CELLS_X))
  by_cases hc : point_in_rectangle px py (20 * p.1 + 2) (20 * p.2 + 2) 18 18 = true
  · rw [if_pos hc, if_pos hc]
  · rw [if_neg hc, if_neg hc, Function.update_eq_self]

theorem grid_check_apply (cells : Int → Bool) (px py x y : Int) (hx : 0 ≤ x ∧ x < 32)
    (hy : 0 ≤ y ∧ y < 22) :
    (grid_check cells px py).1 (arrayIdx x y N_CELLS_X) =
      if point_in_rectangle px py (20 * x + 2) (20 * y + 2) 18 18 = true then
        (if cells (arrayIdx x y N_CELLS_X) = true then false else true)
      else cells (arrayIdx x y N_CELLS_X) := by
  have h := foldl_update_of_mem (fun p : Int × Int => arrayIdx p.1 p.2 N_CELLS_X)
    (fun p old => if point_in_rectangle px py (20 * p.1 + 2) (20 * p.2 + 2) 18 18 = true then
      (if old = true then false else true) else old) cell_order cells (x, y) cell_order_nodup
    ((mem_cell_order _).mpr ⟨hx, hy⟩)
  rw [grid_check_eq]
  dsimp only
  exact h

theorem grid_check_outside (cells : Int → Bool) (px py k : Int) (hk : ¬ (0 ≤ k ∧ k < 704)) :
    (grid_check cells px py).1 k = cells k := by
  have h := foldl_update_of_not_mem (fun p : Int × Int => arrayIdx p.1 p.2 N_CELLS_X)
    (fun p old => if point_in_rectangle px py (20 * p.1 + 2) (20 * p.2 + 2) 18 18 = true then
      (if old = true then false else true) else old) cell_order cells k
    (fun v hv e => hk ((key_range k).mp ⟨v, hv, e⟩))
  rw [grid_check_eq]
  dsimp only
  exact h

/-! ## Cell toggling -/

/-- Every element of `cells` after the grid check. -/
theorem grid_check_cells (cells : Int → Bool) (px py k : Int) :
    (grid_check cells px py).1 k =
      if (0 ≤ k ∧ k < 704) ∧
          point_in_rectangle px py (20 * (k % 32) + 2) (20 * (k / 32) + 2) 18 18 = true then
        (if cells k = true then false else true)
      else cells k := by
  by_cases hk : 0 ≤ k ∧ k < 704
  · have hidx : arrayIdx (k % 32) (k / 32) N_CELLS_X = k := by
      simp only [arrayIdx, N_CELLS_X_eq]
      omega
    have h := grid_check_apply cells px py (k % 32) (k / 32) (by omega) (by omega)
    rw [hidx] at h
    rw [h]
    simp only [hk, and_self, true_and]
  · rw [grid_check_outside cells px py k hk]
    simp only [hk, false_and, if_false]

/-- The `cells` buffer after a pointer-down event that finds the simulation paused. -/
theorem on_mouse_event_paused_cells (s : State) (px py : Int) (hl : ui_layout s.buttons)
    (hrun : s.running = false) :
    (on_mouse_event s (SDL_Event.MOUSEBUTTONDOWN px py)).cells =
      if point_in_rectangle px py 120 440 40 40 = true then
        memset (grid_check s.cells px py).1 false (N_CELLS_X * N_CELLS_Y)
      else (grid_check s.cells px py).1 := by
  have e : on_mouse_event s (SDL_Event.MOUSEBUTTONDOWN px py) =
      button_check { s with cells := (grid_check s.cells px py).1 } px py := by
    show button_check (if s.running = false then _ else s) px py = _
    rw [if_pos hrun]
  rw [e, button_check_eq { s with cells := (grid_check s.cells px py).1 } px py hl]
  by_cases h3 : point_in_rectangle px py 120 440 40 40 = true
  · have h3' := h3
    rw [point_in_rectangle_iff] at h3'
    have n0 : point_in_rectangle px py 0 440 40 40 = false := by
      rw [← Bool.not_eq_true, point_in_rectangle_iff]
      omega
    have n1 : point_in_rectangle px py 40 440 40 40 = false := by
      rw [← Bool.not_eq_true, point_in_rectangle_iff]
      omega
    have n2 : point_in_rectangle px py 80 440 40 40 = false := by
      rw [← Bool.not_eq_true, point_in_rectangle_iff]
      omega
    simp only [n0, n1, n2, h3, Bool.false_eq_true, if_false, if_true, clear_on_click, hrun]
  · have n3 : point_in_rectangle px py 120 440 40 40 = false := Bool.eq_false_iff.mpr h3
    simp only [n3, Bool.false_eq_true, if_false]
    split_ifs
    · exact play_on_click_cells 0 _
    · exact speed_down_on_click_cells 1 _
    · exact speed_up_on_click_cells 2 _
    · rfl

/-- C9, as stated, fails: with `running` FALSE a click inside the Clear button changes two
cells (164 and 165) of the sample grid at once. -/
theorem toggle_at_most_one_counterexample :
    sample_state.running = false ∧ ui_layout sample_state.buttons ∧
    (on_mouse_event sample_state (SDL_Event.MOUSEBUTTONDOWN 130 460)).cells 164 ≠
      sample_state.cells 164 ∧
    (on_mouse_event sample_state (SDL_Event.MOUSEBUTTONDOWN 130 460)).cells 165 ≠
      sample_state.cells 165 := by
  refine ⟨rfl, (ui_layout_iff _).mpr (by decide), ?_, ?_⟩ <;>
    rw [on_mouse_event_paused_cells sample_state 130 460 ((ui_layout_iff _).mpr (by decide)) rfl] <;>
    decide

/-- C9, amended: with the buttons laid out by `init_ui` and `running` FALSE, a pointer-down
event at `(px, py)` outside the Clear button changes at most one cell; at a point of the
grid area with `px mod 20` and `py mod 20` in `3..19` it flips exactly the cell
`(px div 20, py div 20)`; inside no cell's padded square and outside the Clear button it
leaves the grid unchanged; and inside the Clear button it leaves every cell dead. -/
theorem on_mouse_event_toggle (s : State) (px py : Int) (hl : ui_layout s.buttons)
    (hrun : s.running = false) :
    (point_in_rectangle px py 120 440 40 40 = false →
      ∀ k1 k2 : Int,
        (on_mouse_event s (SDL_Event.MOUSEBUTTONDOWN px py)).cells k1 ≠ s.cells k1 →
        (on_mouse_event s (SDL_Event.MOUSEBUTTONDOWN px py)).cells k2 ≠ s.cells k2 →
        k1 = k2) ∧
    (0 ≤ px ∧ px < 640 → 0 ≤ py ∧ py < 440 → 3 ≤ px % 20 ∧ px % 20 ≤ 19 →
      3 ≤ py % 20 ∧ py % 20 ≤ 19 →
      (on_mouse_event s (SDL_Event.MOUSEBUTTONDOWN px py)).cells
          (arrayIdx (px / 20) (py / 20) N_CELLS_X) =
        (if s.cells (arrayIdx (px / 20) (py / 20) N_CELLS_X) = true then false else true) ∧
      ∀ k : Int, k ≠ arrayIdx (px / 20) (py / 20) N_CELLS_X →
        (on_mouse_event s (SDL_Event.MOUSEBUTTONDOWN px py)).cells k = s.cells k) ∧
    ((∀ cy ∈ loopVals 0 (WINDOW_HEIGHT - ICON_SIZE) CELL_SIZE,
        ∀ cx ∈ loopVals 0 WINDOW_WIDTH CELL_SIZE,
          point_in_rectangle px py (cx + CELL_PAD) (cy + CELL_PAD) (CELL_SIZE - CELL_PAD)
            (CELL_SIZE - CELL_PAD) = false) →
      point_in_rectangle px py 120 440 40 40 = false →
      (on_mouse_event s (SDL_Event.MOUSEBUTTONDOWN px py)).cells = s.cells) ∧
    (point_in_rectangle px py 120 440 40 40 = true →
      ∀ k : Int, 0 ≤ k ∧ k < N_CELLS_X * N_CELLS_Y →
        (on_mouse_event s (SDL_Event.MOUSEBUTTONDOWN px py)).cells k = false) := by
  rw [on_mouse_event_paused_cells s px py hl hrun]
  refine ⟨?_, ?_, ?_, ?_⟩
  · intro hc k1 k2 h1 h2
    simp only [hc, Bool.false_eq_true, if_false, grid_check_cells] at h1 h2
    have hit : ∀ k : Int, (if (0 ≤ k ∧ k < 704) ∧
        point_in_rectangle px py (20 * (k % 32) + 2) (20 * (k / 32) + 2) 18 18 = true then
        (if s.cells k = true then false else true) else s.cells k) ≠ s.cells k →
        k = 32 * (py / 20) + px / 20 := by
      intro k hne
      by_cases hk : (0 ≤ k ∧ k < 704) ∧
          point_in_rectangle px py (20 * (k % 32) + 2) (20 * (k / 32) + 2) 18 18 = true
      · obtain ⟨hr, hp⟩ := hk
        rw [point_in_rectangle_iff] at hp
        omega
      · rw [if_neg hk] at hne
        exact absurd rfl hne
    rw [hit k1 h1, hit k2 h2]
  · intro hpx hpy hmx hmy
    have hc : point_in_rectangle px py 120 440 40 40 = false := by
      rw [← Bool.not_eq_true, point_in_rectangle_iff]
      omega
    simp only [hc, Bool.false_eq_true, if_false, grid_check_cells, arrayIdx, N_CELLS_X_eq]
    constructor
    · have hk : (0 ≤ px / 20 + py / 20 * 32 ∧ px / 20 + py / 20 * 32 < 704) ∧
          point_in_rectangle px py (20 * ((px / 20 + py / 20 * 32) % 32) + 2)
            (20 * ((px / 20 + py / 20 * 32) / 32) + 2) 18 18 = true := by
        rw [point_in_rectangle_iff]
        omega
      rw [if_pos hk]
    · intro k hne
      have hk : ¬ ((0 ≤ k ∧ k < 704) ∧
          point_in_rectangle px py (20 * (k % 32) + 2) (20 * (k / 32) + 2) 18 18 = true) := by
        rw [point_in_rectangle_iff]
        omega
      rw [if_neg hk]
  · intro hno hc
    simp only [hc, Bool.false_eq_true, if_false]
    funext k
    rw [grid_check_cells]
    have hk : ¬ ((0 ≤ k ∧ k < 704) ∧
        point_in_rectangle px py (20 * (k % 32) + 2) (20 * (k / 32) + 2) 18 18 = true) := by
      rintro ⟨hr, hp⟩
      have hcy : 20 * (k / 32) ∈ loopVals 0 (WINDOW_HEIGHT - ICON_SIZE) CELL_SIZE := by
        show 20 * (k / 32) ∈ loopVals 0 440 20
        simp only [loopVals, List.mem_map, List.mem_range]
        exact ⟨(k / 32).toNat, by omega, by omega⟩
      have hcx : 20 * (k % 32) ∈ loopVals 0 WINDOW_WIDTH CELL_SIZE := by
        show 20 * (k % 32) ∈ loopVals 0 640 20
        simp only [loopVals, List.mem_map, List.mem_range]
        exact ⟨(k % 32).toNat, by omega, by omega⟩
      have h := hno _ hcy _ hcx
      rw [show (20 * (k % 32) + CELL_PAD) = 20 * (k % 32) + 2 from rfl,
        show (20 * (k / 32) + CELL_PAD) = 20 * (k / 32) + 2 from rfl,
        show CELL_SIZE - CELL_PAD = 18 from rfl, hp] at h
      exact absurd h (by decide)
    rw [if_neg hk]
  · intro hc k hk
    simp only [hc, if_true, memset, hk, and_self]

/-- C9 (amended) for a click at `(105, 110)` on the sample grid: the cell `(5, 5)` flips. -/
theorem on_mouse_event_toggle_witness :
    ui_layout sample_state.buttons ∧ sample_state.running = false ∧
    (on_mouse_event sample_state (SDL_Event.MOUSEBUTTONDOWN 105 110)).cells
        (arrayIdx (105 / 20) (110 / 20) N_CELLS_X) =
      (if sample_state.cells (arrayIdx (105 / 20) (110 / 20) N_CELLS_X) = true then false
        else true) ∧
    ∀ k : Int, k ≠ arrayIdx (105 / 20) (110 / 20) N_CELLS_X →
      (on_mouse_event sample_state (SDL_Event.MOUSEBUTTONDOWN 105 110)).cells k =
        sample_state.cells k :=
  ⟨(ui_layout_iff _).mpr (by decide), rfl,
    (on_mouse_event_toggle sample_state 105 110 ((ui_layout_iff _).mpr (by decide)) rfl).2.1
      (by decide) (by decide) (by decide) (by decide)⟩

/-! ## The speed index -/

theorem call_on_click_speed_idx (i : Int) (s : State)
    (h : 0 ≤ s.speed_idx ∧ s.speed_idx < 5) :
    0 ≤ (call_on_click i s).speed_idx ∧ (call_on_click i s).speed_idx < 5 := by
  unfold call_on_click
  split
  · unfold play_on_click
    split_ifs <;> exact h
  · unfold speed_down_on_click
    split_ifs
    · show 0 ≤ s.speed_idx - 1 ∧ s.speed_idx - 1 < 5
      omega
    · exact h
  · unfold speed_up_on_click
    split_ifs with hc
    · have hc' : s.speed_idx + 1 < 5 := hc
      show 0 ≤ s.speed_idx + 1 ∧ s.speed_idx + 1 < 5
      omega
    · exact h
  · unfold clear_on_click
    split_ifs <;> exact h
  · exact h

theorem button_step_speed_idx (px py : Int) (s : State) (i : Int)
    (h : 0 ≤ s.speed_idx ∧ s.speed_idx < 5) :
    0 ≤ (button_step px py s i).speed_idx ∧ (button_step px py s i).speed_idx < 5 := by
  unfold button_step
  split_ifs
  · exact call_on_click_speed_idx i s h
  · exact h

theorem on_mouse_event_speed_idx (s : State) (evt : SDL_Event)
    (h : 0 ≤ s.speed_idx ∧ s.speed_idx < 5) :
    0 ≤ (on_mouse_event s evt).speed_idx ∧ (on_mouse_event s evt).speed_idx < 5 := by
  cases evt with
  | MOUSEBUTTONDOWN px py =>
    show 0 ≤ (button_check _ px py).speed_idx ∧ (button_check _ px py).speed_idx < 5
    rw [button_check_steps]
    refine button_step_speed_idx px py _ 3 (button_step_speed_idx px py _ 2
      (button_step_speed_idx px py _ 1 (button_step_speed_idx px py _ 0 ?_)))
    split_ifs <;> exact h
  | QUIT => exact h
  | MOUSEMOTION x y => exact h
  | MOUSEBUTTONUP x y => exact h
  | OTHER => exact h

theorem step_decision_speed_idx (m : MainState) :
    (step_decision m).globals.speed_idx = m.globals.speed_idx := by
  unfold step_decision
  dsimp only
  split_ifs <;> rfl

theorem frame_speed_idx (m : MainState) :
    (frame m).globals.speed_idx = m.globals.speed_idx :=
  step_decision_speed_idx m

theorem reachable_speed_idx (m : MainState) (h : Reachable m) :
    0 ≤ m.globals.speed_idx ∧ m.globals.speed_idx < 5 := by
  induction h with
  | start => decide
  | frame m _ ih =>
    rw [frame_speed_idx]
    exact ih
  | event m evt _ ih => exact on_mouse_event_speed_idx m.globals evt ih

/-- C10: `speed_idx` is 2 after `init_app`; in every reachable state it is a valid index of
the table `speeds` (so the read `speeds[speed_idx]` yields an entry of the table), and there
`speed_up_on_click` sets it to `min (speed_idx + 1) 4` and `speed_down_on_click` to
`max (speed_idx - 1) 0`. -/
theorem speed_idx_invariant :
    init_app.speed_idx = 2 ∧
    ∀ m : MainState, Reachable m →
      (0 ≤ m.globals.speed_idx ∧ m.globals.speed_idx < N_SPEEDS) ∧
      speeds[m.globals.speed_idx.toNat]? = some (speeds_at m.globals.speed_idx) ∧
      (∀ i : Int, (speed_up_on_click i m.globals).speed_idx =
        min (m.globals.speed_idx + 1) 4) ∧
      (∀ i : Int, (speed_down_on_click i m.globals).speed_idx =
        max (m.globals.speed_idx - 1) 0) := by
  refine ⟨rfl, fun m hm => ?_⟩
  have h := reachable_speed_idx m hm
  refine ⟨h, ?_, ?_, ?_⟩
  · have hlt : m.globals.speed_idx.toNat < speeds.length := by
      show m.globals.speed_idx.toNat < 5
      omega
    simp only [speeds_at, List.getD_eq_getElem?_getD, List.getElem?_eq_getElem hlt,
      Option.getD_some]
  · intro i
    unfold speed_up_on_click
    split_ifs with hc
    · have hc' : m.globals.speed_idx + 1 < 5 := hc
      show m.globals.speed_idx + 1 = min (m.globals.speed_idx + 1) 4
      omega
    · have hc' : ¬ (m.globals.speed_idx + 1 < 5) := hc
      omega
  · intro i
    unfold speed_down_on_click
    split_ifs with hc
    · show m.globals.speed_idx - 1 = max (m.globals.speed_idx - 1) 0
      omega
    · omega

/-- C10 in the state the program has after its first frame and a click on the Speed-Up
button. -/
theorem speed_idx_invariant_witness :
    Reachable ⟨on_mouse_event (frame main_start).globals (SDL_Event.MOUSEBUTTONDOWN 100 460),
      (frame main_start).frame_next_cells⟩ ∧
    (speed_up_on_click 2 (on_mouse_event (frame main_start).globals
      (SDL_Event.MOUSEBUTTONDOWN 100 460))).speed_idx =
        min ((on_mouse_event (frame main_start).globals
          (SDL_Event.MOUSEBUTTONDOWN 100 460)).speed_idx + 1) 4 :=
  ⟨Reachable.event _ _ (Reachable.frame _ Reachable.start),
    (speed_idx_invariant.2 _
      (Reachable.event _ (SDL_Event.MOUSEBUTTONDOWN 100 460)
        (Reachable.frame _ Reachable.start))).2.2.1 2⟩

/-! ## The blinker -/

set_option maxRecDepth 100000 in
theorem blinker_h0_step : ∀ p < 32, ∀ q < 22,
    life_rule (blinker_h0 (p : Nat) (q : Nat)) (pattern_count blinker_h0 (p : Nat) (q : Nat)) =
      blinker_v0 (p : Nat) (q : Nat) := by
  decide!

set_option maxRecDepth 100000 in
theorem blinker_v0_step : ∀ p < 32, ∀ q < 22,
    life_rule (blinker_v0 (p : Nat) (q : Nat)) (pattern_count blinker_v0 (p : Nat) (q : Nat)) =
      blinker_h0 (p : Nat) (q : Nat) := by
  decide!

/-- One step on a grid given by a pattern `P`. -/
theorem update_cells_pattern (s : State) (P : Int → Int → Bool)
    (hP : ∀ u v : Int, 0 ≤ u ∧ u < 32 → 0 ≤ v ∧ v < 22 → s.cells (arrayIdx u v 32) = P u v)
    (u v : Int) (hu : 0 ≤ u ∧ u < 32) (hv : 0 ≤ v ∧ v < 22) :
    (update_cells s).cells (arrayIdx u v N_CELLS_X) =
      life_rule (P u v) (pattern_count P u v) := by
  have e := fun dx dy h1 h2 => neighbor_idx_eq_mod u v dx dy hu hv h1 h2
  have c := fun (dx dy : Int) (h1 : -1 ≤ dx ∧ dx ≤ 1) (h2 : -1 ≤ dy ∧ dy ≤ 1) =>
    hP ((u + dx) % 32) ((v + dy) % 22) (by omega) (by omega)
  rw [update_cells_apply s u v hu hv]
  unfold next_cell
  rw [count_neighbors_on_sum, e (-1) (-1) (by decide) (by decide),
    e (-1) 0 (by decide) (by decide), e (-1) 1 (by decide) (by decide),
    e 0 (-1) (by decide) (by decide), e 0 1 (by decide) (by decide),
    e 1 (-1) (by decide) (by decide), e 1 0 (by decide) (by decide),
    e 1 1 (by decide) (by decide),
    c (-1) (-1) (by decide) (by decide), c (-1) 0 (by decide) (by decide),
    c (-1) 1 (by decide) (by decide), c 0 (-1) (by decide) (by decide),
    c 0 1 (by decide) (by decide), c 1 (-1) (by decide) (by decide),
    c 1 0 (by decide) (by decide), c 1 1 (by decide) (by decide)]
  show (if s.cells (arrayIdx u v 32) = true then _ else _) = _
  rw [hP u v hu hv]
  rfl

theorem pattern_count_shifted (P : Int → Int → Bool) (x y u v : Int) :
    pattern_count (shifted P x y) u v = pattern_count P ((u - x) % 32) ((v - y) % 22) := by
  have ex : ∀ d : Int, ((u + d) % 32 - x) % 32 = ((u - x) % 32 + d) % 32 := by
    intro d
    omega
  have ey : ∀ d : Int, ((v + d) % 22 - y) % 22 = ((v - y) % 22 + d) % 22 := by
    intro d
    omega
  simp only [pattern_count, shifted, ex, ey]

/-- One step on a horizontal blinker anywhere on the torus gives the vertical blinker with
the same centre, and back. -/
theorem blinker_shifted_step (s : State) (x y : Int) :
    ((∀ u v : Int, 0 ≤ u ∧ u < 32 → 0 ≤ v ∧ v < 22 →
        s.cells (arrayIdx u v 32) = shifted blinker_h0 x y u v) →
      ∀ u v : Int, 0 ≤ u ∧ u < 32 → 0 ≤ v ∧ v < 22 →
        (update_cells s).cells (arrayIdx u v 32) = shifted blinker_v0 x y u v) ∧
    ((∀ u v : Int, 0 ≤ u ∧ u < 32 → 0 ≤ v ∧ v < 22 →
        s.cells (arrayIdx u v 32) = shifted blinker_v0 x y u v) →
      ∀ u v : Int, 0 ≤ u ∧ u < 32 → 0 ≤ v ∧ v < 22 →
        (update_cells s).cells (arrayIdx u v 32) = shifted blinker_h0 x y u v) := by
  constructor
  · intro hP u v hu hv
    have h := update_cells_pattern s _ hP u v hu hv
    have hd := blinker_h0_step ((u - x) % 32).toNat (by omega) ((v - y) % 22).toNat (by omega)
    rw [Int.toNat_of_nonneg (by omega), Int.toNat_of_nonneg (by omega)] at hd
    rw [pattern_count_shifted] at h
    exact h.trans hd
  · intro hP u v hu hv
    have h := update_cells_pattern s _ hP u v hu hv
    have hd := blinker_v0_step ((u - x) % 32).toNat (by omega) ((v - y) % 22).toNat (by omega)
    rw [Int.toNat_of_nonneg (by omega), Int.toNat_of_nonneg (by omega)] at hd
    rw [pattern_count_shifted] at h
    exact h.trans hd

theorem horizontal_blinker_iff (x y : Int) (hx : 0 ≤ x ∧ x < 32) (hy : 0 ≤ y ∧ y < 22)
    (cells : Int → Bool) :
    horizontal_blinker x y cells ↔
      ∀ u v : Int, 0 ≤ u ∧ u < 32 → 0 ≤ v ∧ v < 22 →
        cells (arrayIdx u v 32) = shifted blinker_h0 x y u v := by
  have key : ∀ u v : Int, 0 ≤ u ∧ u < 32 → 0 ≤ v ∧ v < 22 →
      (shifted blinker_h0 x y u v = true ↔
        v = y ∧ (u = (x - 1) % 32 ∨ u = x ∨ u = (x + 1) % 32)) := by
    intro u v hu hv
    simp only [shifted, blinker_h0, decide_eq_true_eq]
    omega
  constructor
  · intro h u v hu hv
    rw [Bool.eq_iff_iff, key u v hu hv]
    exact h u v hu hv
  · intro h u v hu hv
    have hu' : 0 ≤ u ∧ u < 32 := hu
    have hv' : 0 ≤ v ∧ v < 22 := hv
    show cells (arrayIdx u v 32) = true ↔ v = y ∧ (u = (x - 1) % 32 ∨ u = x ∨ u = (x + 1) % 32)
    rw [h u v hu' hv', key u v hu' hv']

theorem vertical_blinker_iff (x y : Int) (hx : 0 ≤ x ∧ x < 32) (hy : 0 ≤ y ∧ y < 22)
    (cells : Int → Bool) :
    vertical_blinker x y cells ↔
      ∀ u v : Int, 0 ≤ u ∧ u < 32 → 0 ≤ v ∧ v < 22 →
        cells (arrayIdx u v 32) = shifted blinker_v0 x y u v := by
  have key : ∀ u v : Int, 0 ≤ u ∧ u < 32 → 0 ≤ v ∧ v < 22 →
      (shifted blinker_v0 x y u v = true ↔
        u = x ∧ (v = (y - 1) % 22 ∨ v = y ∨ v = (y + 1) % 22)) := by
    intro u v hu hv
    simp only [shifted, blinker_v0, decide_eq_true_eq]
    omega
  constructor
  · intro h u v hu hv
    rw [Bool.eq_iff_iff, key u v hu hv]
    exact h u v hu hv
  · intro h u v hu hv
    have hu' : 0 ≤ u ∧ u < 32 := hu
    have hv' : 0 ≤ v ∧ v < 22 := hv
    show cells (arrayIdx u v 32) = true ↔ u = x ∧ (v = (y - 1) % 22 ∨ v = y ∨ v = (y + 1) % 22)
    rw [h u v hu' hv', key u v hu' hv']

/-- One step turns the horizontal blinker into the vertical one, and back. -/
theorem blinker_step (s : State) (x y : Int) (hx : 0 ≤ x ∧ x < 32) (hy : 0 ≤ y ∧ y < 22) :
    (horizontal_blinker x y s.cells → vertical_blinker x y (update_cells s).cells) ∧
    (vertical_blinker x y s.cells → horizontal_blinker x y (update_cells s).cells) := by
  rw [horizontal_blinker_iff x y hx hy, vertical_blinker_iff x y hx hy,
    horizontal_blinker_iff x y hx hy, vertical_blinker_iff x y hx hy]
  exact blinker_shifted_step s x y

/-! ## The frame loop -/

theorem frame_paused (m : MainState) (hrun : m.globals.running = false) :
    frame m = ⟨redraw m.globals, speeds_at m.globals.speed_idx - 1⟩ := by
  simp only [frame, step_decision, hrun, Bool.false_eq_true, if_false]

theorem frame_step (m : MainState) (hrun : m.globals.running = true)
    (hc : speeds_at m.globals.speed_idx ≤ m.frame_next_cells + 1) :
    frame m = ⟨redraw (update_cells m.globals), 0⟩ := by
  have hc' : m.frame_next_cells + 1 ≥ speeds_at m.globals.speed_idx := hc
  simp only [frame, step_decision, hrun, if_true, hc']

theorem frame_wait (m : MainState) (hrun : m.globals.running = true)
    (hc : m.frame_next_cells + 1 < speeds_at m.globals.speed_idx) :
    frame m = ⟨redraw m.globals, m.frame_next_cells + 1⟩ := by
  have hc' : ¬ (m.frame_next_cells + 1 ≥ speeds_at m.globals.speed_idx) := not_le.mpr hc
  simp only [frame, step_decision, hrun, if_true, hc', if_false]

theorem loop_iteration_idle (m : MainState) : loop_iteration m [] = some (frame m) := rfl

/-- A drain of pointer-down events dispatches each of them, in order, and does not end the
program. -/
theorem poll_events_down (evs : List SDL_Event) (s : State)
    (hev : ∀ e ∈ evs, ∃ x y, e = SDL_Event.MOUSEBUTTONDOWN x y) :
    poll_events s evs = some (evs.foldl on_mouse_event s) := by
  induction evs generalizing s with
  | nil => rfl
  | cons e evs ih =>
    obtain ⟨x, y, rfl⟩ := hev e (List.mem_cons_self _ _)
    rw [List.foldl_cons, ← ih _ (fun e he => hev e (List.mem_cons_of_mem _ he))]
    rfl

theorem loop_iteration_down (m : MainState) (evs : List SDL_Event)
    (hev : ∀ e ∈ evs, ∃ x y, e = SDL_Event.MOUSEBUTTONDOWN x y) :
    loop_iteration m evs =
      some ⟨evs.foldl on_mouse_event (frame m).globals, (frame m).frame_next_cells⟩ := by
  simp only [loop_iteration, poll_events_down evs _ hev]

/-- Every loop iteration that does not end the program leads from a reachable state to a
reachable state. -/
theorem loop_iteration_reachable (m m1 : MainState) (evs : List SDL_Event)
    (hm : Reachable m) (hit : loop_iteration m evs = some m1) : Reachable m1 := by
  have key : ∀ (evs : List SDL_Event) (s s1 : State) (c : Int), Reachable ⟨s, c⟩ →
      poll_events s evs = some s1 → Reachable ⟨s1, c⟩ := by
    intro evs
    induction evs with
    | nil =>
      intro s s1 c hr hp
      cases hp
      exact hr
    | cons e evs ih =>
      intro s s1 c hr hp
      cases e with
      | QUIT => cases hp
      | OTHER => exact ih s s1 c hr hp
      | MOUSEMOTION x y => exact ih _ s1 c (Reachable.event ⟨s, c⟩ _ hr) hp
      | MOUSEBUTTONUP x y => exact ih _ s1 c (Reachable.event ⟨s, c⟩ _ hr) hp
      | MOUSEBUTTONDOWN x y => exact ih _ s1 c (Reachable.event ⟨s, c⟩ _ hr) hp
  unfold loop_iteration at hit
  dsimp only at hit
  split at hit
  · rename_i s hs
    cases hit
    exact key evs _ s _ (Reachable.frame m hm) hs
  · cases hit

/-! ## Resuming -/

theorem grid_check_below (cells : Int → Bool) (px py : Int) (hpy : 440 ≤ py) :
    (grid_check cells px py).1 = cells := by
  funext k
  rw [grid_check_cells]
  have hk : ¬ ((0 ≤ k ∧ k < 704) ∧
      point_in_rectangle px py (20 * (k % 32) + 2) (20 * (k / 32) + 2) 18 18 = true) := by
    rw [point_in_rectangle_iff]
    omega
  rw [if_neg hk]

/-- A pointer-down event in the button row only runs the button check. -/
theorem on_mouse_event_below (s : State) (px py : Int) (hpy : 440 ≤ py) :
    on_mouse_event s (SDL_Event.MOUSEBUTTONDOWN px py) = button_check s px py := by
  show button_check (if s.running = false then
    { s with cells := (grid_check s.cells px py).1 } else s) px py = _
  rw [grid_check_below s.cells px py hpy]
  split_ifs <;> rfl

theorem on_mouse_event_layout (s : State) (evt : SDL_Event) (hl : ui_layout s.buttons) :
    ui_layout (on_mouse_event s evt).buttons := by
  cases evt with
  | MOUSEBUTTONDOWN px py =>
    show ui_layout (button_check _ px py).buttons
    rw [button_check_steps]
    refine button_step_layout px py _ 3 (button_step_layout px py _ 2
      (button_step_layout px py _ 1 (button_step_layout px py _ 0 ?_)))
    split_ifs <;> exact hl
  | QUIT => exact hl
  | MOUSEMOTION x y => exact hl
  | MOUSEBUTTONUP x y => exact hl
  | OTHER => exact hl

/-- A click on the Toggle-Play button while paused, with the button showing Play. -/
theorem click_play_paused (s : State) (px py : Int) (hl : ui_layout s.buttons)
    (hst : (s.buttons 0).state = false)
    (hclick : point_in_rectangle px py 0 440 40 40 = true) :
    on_mouse_event s (SDL_Event.MOUSEBUTTONDOWN px py) =
      { s with buttons := Function.update s.buttons 0 { s.buttons 0 with state := true },
               running := true } := by
  have hpy : 440 ≤ py := by
    rw [point_in_rectangle_iff] at hclick
    omega
  rw [on_mouse_event_below s px py hpy, button_check_eq s px py hl, if_pos hclick]
  simp only [play_on_click, hst, Bool.false_eq_true, if_false]

/-- The iteration after a drain that resumes: the counter was pinned with the divisor the
paused iteration started with, so the iteration steps (and resets the counter) exactly when
the divisor at the end of the drain is no larger than that one. -/
theorem frame_after_resume (m : MainState) (evs : List SDL_Event)
    (hrun : m.globals.running = false)
    (hev : ∀ e ∈ evs, ∃ x y, e = SDL_Event.MOUSEBUTTONDOWN x y) :
    ∃ m1 : MainState, loop_iteration m evs = some m1 ∧
      (m1.globals.running = true →
        (speeds_at m1.globals.speed_idx ≤ speeds_at m.globals.speed_idx →
          frame m1 = ⟨redraw (update_cells m1.globals), 0⟩) ∧
        (speeds_at m.globals.speed_idx < speeds_at m1.globals.speed_idx →
          frame m1 = ⟨redraw m1.globals, speeds_at m.globals.speed_idx⟩)) := by
  refine ⟨_, loop_iteration_down m evs hev, fun hrun1 => ⟨fun hle => ?_, fun hlt => ?_⟩⟩
  · refine frame_step _ hrun1 ?_
    rw [frame_paused m hrun]
    show speeds_at _ ≤ speeds_at m.globals.speed_idx - 1 + 1
    rw [frame_paused m hrun] at hle
    have : speeds_at m.globals.speed_idx - 1 + 1 = speeds_at m.globals.speed_idx := by ring
    rw [this]
    exact hle
  · rw [frame_wait _ hrun1 ?_]
    · rw [frame_paused m hrun]
      show (⟨_, speeds_at m.globals.speed_idx - 1 + 1⟩ : MainState) = _
      rw [show speeds_at m.globals.speed_idx - 1 + 1 = speeds_at m.globals.speed_idx by ring]
    · rw [frame_paused m hrun]
      show speeds_at m.globals.speed_idx - 1 + 1 < _
      rw [frame_paused m hrun] at hlt
      rw [show speeds_at m.globals.speed_idx - 1 + 1 = speeds_at m.globals.speed_idx by ring]
      exact hlt

/-- The same resume with the Speed-Up button in place of Speed-Down: the next iteration
steps at once and resets the counter. -/
theorem resume_speed_up_steps :
    sample_main.globals.running = false ∧
    ∃ m1 : MainState,
      loop_iteration sample_main
        [SDL_Event.MOUSEBUTTONDOWN 100 460, SDL_Event.MOUSEBUTTONDOWN 20 460] = some m1 ∧
      m1.globals.running = true ∧
      frame m1 = ⟨redraw (update_cells m1.globals), 0⟩ := by
  have hl0 : ui_layout (frame sample_main).globals.buttons := (ui_layout_iff _).mpr (by decide)
  have e1 : on_mouse_event (frame sample_main).globals (SDL_Event.MOUSEBUTTONDOWN 100 460) =
      speed_up_on_click 2 (frame sample_main).globals := by
    rw [on_mouse_event_below _ 100 460 (by decide), button_check_eq _ 100 460 hl0]
    rfl
  have hl1 : ui_layout (speed_up_on_click 2 (frame sample_main).globals).buttons :=
    (ui_layout_iff _).mpr (by decide)
  have e2 : on_mouse_event (speed_up_on_click 2 (frame sample_main).globals)
      (SDL_Event.MOUSEBUTTONDOWN 20 460) =
      play_on_click 0 (speed_up_on_click 2 (frame sample_main).globals) := by
    rw [on_mouse_event_below _ 20 460 (by decide), button_check_eq _ 20 460 hl1]
    rfl
  refine ⟨rfl, ⟨play_on_click 0 (speed_up_on_click 2 (frame sample_main).globals),
    (frame sample_main).frame_next_cells⟩, ?_, by decide,
    frame_step _ (by decide) (by decide)⟩
  rw [loop_iteration_down _ _ (by simp)]
  simp only [List.foldl_cons, List.foldl_nil, e1, e2]

/-- The same two clicks in two successive drains (Speed-Down in one paused iteration,
Toggle-Play in the next): the iteration after the resume steps at once and resets the
counter. -/
theorem resume_speed_down_earlier_steps :
    sample_main.globals.running = false ∧
    ∃ m1 m2 : MainState,
      loop_iteration sample_main [SDL_Event.MOUSEBUTTONDOWN 60 460] = some m1 ∧
      m1.globals.running = false ∧
      loop_iteration m1 [SDL_Event.MOUSEBUTTONDOWN 20 460] = some m2 ∧
      m2.globals.running = true ∧
      frame m2 = ⟨redraw (update_cells m2.globals), 0⟩ := by
  have hl0 : ui_layout (frame sample_main).globals.buttons := (ui_layout_iff _).mpr (by decide)
  have e1 : on_mouse_event (frame sample_main).globals (SDL_Event.MOUSEBUTTONDOWN 60 460) =
      speed_down_on_click 1 (frame sample_main).globals := by
    rw [on_mouse_event_below _ 60 460 (by decide), button_check_eq _ 60 460 hl0]
    rfl
  have hl1 : ui_layout (frame ⟨speed_down_on_click 1 (frame sample_main).globals,
      (frame sample_main).frame_next_cells⟩).globals.buttons :=
    (ui_layout_iff _).mpr (by decide)
  have e2 : on_mouse_event (frame ⟨speed_down_on_click 1 (frame sample_main).globals,
        (frame sample_main).frame_next_cells⟩).globals (SDL_Event.MOUSEBUTTONDOWN 20 460) =
      play_on_click 0 (frame ⟨speed_down_on_click 1 (frame sample_main).globals,
        (frame sample_main).frame_next_cells⟩).globals := by
    rw [on_mouse_event_below _ 20 460 (by decide), button_check_eq _ 20 460 hl1]
    rfl
  refine ⟨rfl, ⟨speed_down_on_click 1 (frame sample_main).globals,
      (frame sample_main).frame_next_cells⟩,
    ⟨play_on_click 0 (frame ⟨speed_down_on_click 1 (frame sample_main).globals,
        (frame sample_main).frame_next_cells⟩).globals,
      (frame ⟨speed_down_on_click 1 (frame sample_main).globals,
        (frame sample_main).frame_next_cells⟩).frame_next_cells⟩,
    ?_, by decide, ?_, by decide, frame_step _ (by decide) (by decide)⟩
  · rw [loop_iteration_down _ _ (by simp)]
    simp only [List.foldl_cons, List.foldl_nil, e1]
  · rw [loop_iteration_down _ _ (by simp)]
    simp only [List.foldl_cons, List.foldl_nil, e2]

/-- C6 (speed resume invariant), broken by the code: paused at speed index 2 with the
sample grid, a drain that holds a click on the Speed-Down button and then one on the
Toggle-Play button ends with `running` TRUE, and the next loop iteration, which the
invariant requires to step and to reset the frame counter to 0, only moves the counter to
15: no step is made (the cell `(5, 4)`, which a step would bring to life, stays dead). -/
theorem resume_speed_down_no_step :
    sample_main.globals.running = false ∧
    ∃ m1 : MainState,
      loop_iteration sample_main
        [SDL_Event.MOUSEBUTTONDOWN 60 460, SDL_Event.MOUSEBUTTONDOWN 20 460] = some m1 ∧
      m1.globals.running = true ∧
      frame m1 = ⟨redraw m1.globals, 15⟩ ∧
      (frame m1).globals.cells (arrayIdx 5 4 N_CELLS_X) = false ∧
      (update_cells m1.globals).cells (arrayIdx 5 4 N_CELLS_X) = true := by
  have hl0 : ui_layout (frame sample_main).globals.buttons := (ui_layout_iff _).mpr (by decide)
  have e1 : on_mouse_event (frame sample_main).globals (SDL_Event.MOUSEBUTTONDOWN 60 460) =
      speed_down_on_click 1 (frame sample_main).globals := by
    rw [on_mouse_event_below _ 60 460 (by decide), button_check_eq _ 60 460 hl0]
    rfl
  have hl1 : ui_layout (speed_down_on_click 1 (frame sample_main).globals).buttons :=
    (ui_layout_iff _).mpr (by decide)
  have e2 : on_mouse_event (speed_down_on_click 1 (frame sample_main).globals)
      (SDL_Event.MOUSEBUTTONDOWN 20 460) =
      play_on_click 0 (speed_down_on_click 1 (frame sample_main).globals) := by
    rw [on_mouse_event_below _ 20 460 (by decide), button_check_eq _ 20 460 hl1]
    rfl
  have hf : frame ⟨play_on_click 0 (speed_down_on_click 1 (frame sample_main).globals),
      (frame sample_main).frame_next_cells⟩ =
      ⟨redraw (play_on_click 0 (speed_down_on_click 1 (frame sample_main).globals)), 15⟩ :=
    frame_wait _ (by decide) (by decide)
  refine ⟨rfl, ⟨play_on_click 0 (speed_down_on_click 1 (frame sample_main).globals),
    (frame sample_main).frame_next_cells⟩, ?_, by decide, hf, ?_, ?_⟩
  · rw [loop_iteration_down _ _ (by simp)]
    simp only [List.foldl_cons, List.foldl_nil, e1, e2]
  · rw [hf]
    decide
  · rw [update_cells_apply _ 5 4 (by decide) (by decide)]
    decide

/-! ## End to end -/

theorem idle_iterations_succ (n : Nat) (m : MainState) :
    idle_iterations (n + 1) m = idle_iterations n (frame m) := rfl

/-- Paused iterations without events keep the simulation state. -/
theorem idle_paused (n : Nat) (m : MainState) (hrun : m.globals.running = false) :
    ∃ m1 : MainState, idle_iterations n m = some m1 ∧
      m1.globals.cells = m.globals.cells ∧ m1.globals.running = false ∧
      m1.globals.buttons = m.globals.buttons ∧
      m1.globals.speed_idx = m.globals.speed_idx := by
  induction n generalizing m with
  | zero => exact ⟨m, rfl, rfl, hrun, rfl, rfl⟩
  | succ n ih =>
    rw [idle_iterations_succ, frame_paused m hrun]
    exact ih _ hrun

/-- Running iterations without events that stay below the divisor only count frames. -/
theorem idle_wait (k : Nat) (m : MainState) (hrun : m.globals.running = true)
    (hc : m.frame_next_cells + k < speeds_at m.globals.speed_idx) :
    ∃ m1 : MainState, idle_iterations k m = some m1 ∧
      m1.globals.cells = m.globals.cells ∧ m1.globals.running = true ∧
      m1.globals.speed_idx = m.globals.speed_idx ∧
      m1.frame_next_cells = m.frame_next_cells + k := by
  induction k generalizing m with
  | zero => exact ⟨m, rfl, rfl, hrun, rfl, by simp⟩
  | succ k ih =>
    have hw : m.frame_next_cells + 1 < speeds_at m.globals.speed_idx := by
      push_cast at hc
      omega
    rw [idle_iterations_succ, frame_wait m hrun hw]
    obtain ⟨m1, h1, h2, h3, h4, h5⟩ := ih ⟨redraw m.globals, m.frame_next_cells + 1⟩ hrun
      (by
        show m.frame_next_cells + 1 + (k : Int) < speeds_at m.globals.speed_idx
        push_cast at hc
        omega)
    refine ⟨m1, h1, h2, h3, h4, ?_⟩
    rw [h5]
    push_cast
    ring

/-- From a running state whose frame counter is one below the divisor `d`, the next `d`
iterations without events make exactly one step, in the first of them, and leave the
counter one below the divisor again. -/
theorem idle_period (d : Nat) (m : MainState) (hrun : m.globals.running = true)
    (hd : speeds_at m.globals.speed_idx = d) (hd1 : 1 ≤ d)
    (hc : m.frame_next_cells = (d : Int) - 1) :
    ∃ m1 : MainState, idle_iterations d m = some m1 ∧
      m1.globals.cells = (update_cells m.globals).cells ∧ m1.globals.running = true ∧
      m1.globals.speed_idx = m.globals.speed_idx ∧
      m1.frame_next_cells = (d : Int) - 1 := by
  obtain ⟨k, rfl⟩ : ∃ k, d = k + 1 := ⟨d - 1, by omega⟩
  rw [idle_iterations_succ, frame_step m hrun (by rw [hd, hc]; push_cast; omega)]
  obtain ⟨m1, h1, h2, h3, h4, h5⟩ := idle_wait k ⟨redraw (update_cells m.globals), 0⟩ hrun
    (by
      show (0 : Int) + (k : Int) < speeds_at m.globals.speed_idx
      rw [hd]
      push_cast
      omega)
  refine ⟨m1, h1, h2, h3, h4, ?_⟩
  rw [h5]
  push_cast
  ring

theorem speeds_at_pos (i : Int) (h : 0 ≤ i ∧ i < 5) :
    1 ≤ (speeds_at i).toNat ∧ ((speeds_at i).toNat : Int) = speeds_at i := by
  obtain ⟨h0, h5⟩ := h
  interval_cases i <;> decide

/-- C7 (end to end): from a paused state holding exactly the horizontal blinker centred at
`(x, y)`, at any speed index, after any number of paused iterations a click on the
Toggle-Play button is delivered and nothing else. Then `d = speeds[speed_idx]` further
iterations lead to exactly the vertical blinker, and `d` more lead back to exactly the
horizontal one. -/
theorem blinker_end_to_end (m : MainState) (x y px py : Int) (n : Nat)
    (hx : 0 ≤ x ∧ x < N_CELLS_X) (hy : 0 ≤ y ∧ y < N_CELLS_Y)
    (hl : ui_layout m.globals.buttons) (hrun : m.globals.running = false)
    (hst : (m.globals.buttons 0).state = false)
    (hspeed : 0 ≤ m.globals.speed_idx ∧ m.globals.speed_idx < N_SPEEDS)
    (hcells : horizontal_blinker x y m.globals.cells)
    (hclick : point_in_rectangle px py 0 (WINDOW_HEIGHT - ICON_SIZE) ICON_SIZE ICON_SIZE
      = true) :
    ∃ m0 m1 m2 m3 : MainState,
      idle_iterations n m = some m0 ∧
      loop_iteration m0 [SDL_Event.MOUSEBUTTONDOWN px py] = some m1 ∧
      idle_iterations (speeds_at m.globals.speed_idx).toNat m1 = some m2 ∧
      vertical_blinker x y m2.globals.cells ∧
      idle_iterations (speeds_at m.globals.speed_idx).toNat m2 = some m3 ∧
      horizontal_blinker x y m3.globals.cells := by
  obtain ⟨hd1, hd⟩ := speeds_at_pos m.globals.speed_idx hspeed
  obtain ⟨m0, e0, c0, r0, b0, s0⟩ := idle_paused n m hrun
  have hl0 : ui_layout (frame m0).globals.buttons := by
    rw [frame_paused m0 r0]
    show ui_layout m0.globals.buttons
    rw [b0]
    exact hl
  have hst0 : ((frame m0).globals.buttons 0).state = false := by
    rw [frame_paused m0 r0]
    show (m0.globals.buttons 0).state = false
    rw [b0]
    exact hst
  have e1 : loop_iteration m0 [SDL_Event.MOUSEBUTTONDOWN px py] =
      some ⟨{ (frame m0).globals with
          buttons := Function.update (frame m0).globals.buttons 0
            { (frame m0).globals.buttons 0 with state := true },
          running := true }, (frame m0).frame_next_cells⟩ := by
    rw [loop_iteration_down m0 _ (by simp)]
    simp only [List.foldl_cons, List.foldl_nil]
    rw [click_play_paused _ px py hl0 hst0 hclick]
  have hf0 : frame m0 = ⟨redraw m0.globals, speeds_at m0.globals.speed_idx - 1⟩ :=
    frame_paused m0 r0
  obtain ⟨m2, e2, c2, r2, s2, f2⟩ := idle_period (speeds_at m.globals.speed_idx).toNat
    ⟨{ (frame m0).globals with
        buttons := Function.update (frame m0).globals.buttons 0
          { (frame m0).globals.buttons 0 with state := true },
        running := true }, (frame m0).frame_next_cells⟩ rfl
    (by
      show speeds_at (frame m0).globals.speed_idx = _
      rw [hf0]
      show speeds_at m0.globals.speed_idx = _
      rw [s0, hd]) hd1
    (by
      show (frame m0).frame_next_cells = _
      rw [hf0]
      show speeds_at m0.globals.speed_idx - 1 = _
      rw [s0, hd])
  have hv : vertical_blinker x y m2.globals.cells := by
    rw [c2]
    refine (blinker_step _ x y hx hy).1 ?_
    show horizontal_blinker x y (frame m0).globals.cells
    rw [hf0]
    show horizontal_blinker x y m0.globals.cells
    rw [c0]
    exact hcells
  have s2' : m2.globals.speed_idx = m.globals.speed_idx := by
    rw [s2]
    show (frame m0).globals.speed_idx = _
    rw [hf0]
    exact s0
  obtain ⟨m3, e3, c3, -, -, -⟩ := idle_period (speeds_at m.globals.speed_idx).toNat m2 r2
    (by rw [s2', hd]) hd1 f2
  refine ⟨m0, _, m2, m3, e0, e1, e2, hv, e3, ?_⟩
  rw [c3]
  exact (blinker_step _ x y hx hy).2 hv

theorem sample_blinker : horizontal_blinker 5 5 sample_state.cells := by
  intro u v hu hv
  have hu' : 0 ≤ u ∧ u < 32 := hu
  have hv' : 0 ≤ v ∧ v < 22 := hv
  simp only [sample_state, arrayIdx, N_CELLS_X_eq, decide_eq_true_eq]
  omega

/-- C7 for the sample grid (blinker centred at `(5, 5)`, speed index 2), the click at
`(20, 460)` coming in the third paused iteration. -/
theorem blinker_end_to_end_witness :
    horizontal_blinker 5 5 sample_main.globals.cells ∧
    ∃ m0 m1 m2 m3 : MainState,
      idle_iterations 2 sample_main = some m0 ∧
      loop_iteration m0 [SDL_Event.MOUSEBUTTONDOWN 20 460] = some m1 ∧
      idle_iterations (speeds_at sample_main.globals.speed_idx).toNat m1 = some m2 ∧
      vertical_blinker 5 5 m2.globals.cells ∧
      idle_iterations (speeds_at sample_main.globals.speed_idx).toNat m2 = some m3 ∧
      horizontal_blinker 5 5 m3.globals.cells :=
  ⟨sample_blinker,
    blinker_end_to_end sample_main 5 5 20 460 2 (by decide) (by decide)
      ((ui_layout_iff _).mpr (by decide)) rfl rfl (by decide) sample_blinker (by decide)⟩

/-! ## Invariants of the reachable states

The hypotheses on the buttons used above hold in every reachable state. -/

theorem frame_buttons (m : MainState) :
    (frame m).globals.buttons = m.globals.buttons ∧
      (frame m).globals.running = m.globals.running := by
  unfold frame step_decision
  dsimp only
  split_ifs <;> exact ⟨rfl, rfl⟩

theorem on_mouse_event_lockstep (s : State) (evt : SDL_Event) (hl : ui_layout s.buttons)
    (hs : (s.buttons 0).state = s.running) :
    ((on_mouse_event s evt).buttons 0).state = (on_mouse_event s evt).running := by
  cases evt with
  | MOUSEBUTTONDOWN px py =>
    show ((button_check (if s.running = false then
      { s with cells := (grid_check s.cells px py).1 } else s) px py).buttons 0).state =
      (button_check (if s.running = false then
        { s with cells := (grid_check s.cells px py).1 } else s) px py).running
    have key : ∀ t : State, ui_layout t.buttons → (t.buttons 0).state = t.running →
        ((button_check t px py).buttons 0).state = (button_check t px py).running := by
      intro t hlt hst
      rw [button_check_eq t px py hlt]
      split_ifs
      · unfold play_on_click
        split_ifs <;> simp only [Function.update_same]
      · unfold speed_down_on_click
        split_ifs <;> exact hst
      · unfold speed_up_on_click
        split_ifs <;> exact hst
      · unfold clear_on_click
        split_ifs <;> exact hst
      · exact hst
    split_ifs
    · exact key _ hl hs
    · exact key _ hl hs
  | QUIT => exact hs
  | MOUSEMOTION x y => exact hs
  | MOUSEBUTTONUP x y => exact hs
  | OTHER => exact hs

/-- In every reachable state the buttons are where `init_ui` put them and the state of the
Toggle-Play button equals `running`. -/
theorem reachable_buttons (m : MainState) (h : Reachable m) :
    ui_layout m.globals.buttons ∧ (m.globals.buttons 0).state = m.globals.running := by
  induction h with
  | start => exact ⟨(ui_layout_iff _).mpr (by decide), rfl⟩
  | frame m _ ih =>
    rw [(frame_buttons m).1, (frame_buttons m).2]
    exact ih
  | event m evt _ ih =>
    exact ⟨on_mouse_event_layout m.globals evt ih.1,
      on_mouse_event_lockstep m.globals evt ih.1 ih.2⟩

/-! ## Play and running in lockstep -/

theorem play_on_click_twice (s : State) (hs : (s.buttons 0).state = s.running) :
    play_on_click 0 (play_on_click 0 s) = s := by
  obtain ⟨px, cl, ncl, run, bs, sp⟩ := s
  have hs' : (bs 0).state = run := hs
  cases hb : (bs 0).state
  · have hrun : run = false := by rw [← hs', hb]
    subst hrun
    simp only [play_on_click, hb, Bool.false_eq_true, if_false, Function.update_same, if_true,
      Function.update_idem]
    congr 1
    rw [← hb]
    exact Function.update_eq_self 0 bs
  · have hrun : run = true := by rw [← hs', hb]
    subst hrun
    simp only [play_on_click, hb, if_true, Function.update_same, Bool.false_eq_true, if_false,
      Function.update_idem]
    congr 1
    rw [← hb]
    exact Function.update_eq_self 0 bs

/-- C11: `init_ui` makes the state of the Toggle-Play button equal to `running`; the two
are equal in every reachable state; there `play_on_click` on that button negates both, and
two calls in a row give back the state they started from. -/
theorem play_running_lockstep :
    (∀ s : State, ((init_ui s).buttons 0).state = (init_ui s).running) ∧
    ∀ m : MainState, Reachable m →
      (m.globals.buttons 0).state = m.globals.running ∧
      ((play_on_click 0 m.globals).buttons 0).state = !(m.globals.buttons 0).state ∧
      (play_on_click 0 m.globals).running = !m.globals.running ∧
      ((play_on_click 0 m.globals).buttons 0).state = (play_on_click 0 m.globals).running ∧
      play_on_click 0 (play_on_click 0 m.globals) = m.globals := by
  refine ⟨fun s => ?_, fun m hm => ?_⟩
  · simp [init_ui, Function.update]
  · have hs := (reachable_buttons m hm).2
    refine ⟨hs, ?_, ?_, ?_, play_on_click_twice _ hs⟩
    · unfold play_on_click
      split_ifs with h
      · simp only [Function.update_same, h, Bool.not_true]
      · simp only [Function.update_same, Bool.eq_false_iff.mpr h, Bool.not_false]
    · rw [← hs]
      unfold play_on_click
      split_ifs with h
      · simp only [h, Bool.not_true]
      · simp only [Bool.eq_false_iff.mpr h, Bool.not_false]
    · unfold play_on_click
      split_ifs <;> simp only [Function.update_same]

/-- C11 in the state reached by the first frame and one click on the Toggle-Play button. -/
theorem play_running_lockstep_witness :
    Reachable ⟨on_mouse_event (frame main_start).globals (SDL_Event.MOUSEBUTTONDOWN 20 460),
      (frame main_start).frame_next_cells⟩ ∧
    play_on_click 0 (play_on_click 0
        (on_mouse_event (frame main_start).globals (SDL_Event.MOUSEBUTTONDOWN 20 460))) =
      on_mouse_event (frame main_start).globals (SDL_Event.MOUSEBUTTONDOWN 20 460) :=
  ⟨Reachable.event _ _ (Reachable.frame _ Reachable.start),
    (play_running_lockstep.2 _
      (Reachable.event _ (SDL_Event.MOUSEBUTTONDOWN 20 460)
        (Reachable.frame _ Reachable.start))).2.2.2.2⟩

/-! ## Clear -/

/-- C12: with `running` FALSE, `clear_on_click` leaves every one of the `32 * 22` entries
of `cells` and of `ncells` dead; with `running` TRUE it leaves both buffers as they were;
in both cases `running`, `speed_idx` and the buttons are unchanged. -/
theorem clear_on_click_spec (i : Int) (s : State) :
    (s.running = false →
      ∀ k : Int, 0 ≤ k ∧ k < N_CELLS_X * N_CELLS_Y →
        (clear_on_click i s).cells k = false ∧ (clear_on_click i s).ncells k = false) ∧
    (s.running = true →
      (clear_on_click i s).cells = s.cells ∧ (clear_on_click i s).ncells = s.ncells) ∧
    (clear_on_click i s).running = s.running ∧
    (clear_on_click i s).speed_idx = s.speed_idx ∧
    (clear_on_click i s).buttons = s.buttons := by
  refine ⟨fun hrun k hk => ?_, fun hrun => ?_, ?_, ?_, ?_⟩
  · simp only [clear_on_click, hrun, if_true, memset, hk, and_self]
  · simp only [clear_on_click, hrun, Bool.true_eq_false, if_false, and_self]
  · unfold clear_on_click
    split_ifs <;> rfl
  · unfold clear_on_click
    split_ifs <;> rfl
  · unfold clear_on_click
    split_ifs <;> rfl

/-- C12 on the paused sample state (cell 165 is cleared) and on the running one. -/
theorem clear_on_click_spec_witness :
    sample_state.running = false ∧ running_state.running = true ∧
    ((clear_on_click 3 sample_state).cells 165 = false ∧
      (clear_on_click 3 sample_state).ncells 165 = false) ∧
    ((clear_on_click 3 running_state).cells = running_state.cells ∧
      (clear_on_click 3 running_state).ncells = running_state.ncells) :=
  ⟨rfl, rfl, (clear_on_click_spec 3 sample_state).1 rfl 165 (by decide),
    (clear_on_click_spec 3 running_state).2.1 rfl⟩

/-! ## putpixel -/

theorem putpixel_apply (pixels : Int → Nat) (x y : Int) (c : color) (X Y : Int)
    (hX : 0 ≤ X ∧ X < 640) (hY : 0 ≤ Y ∧ Y < 480) :
    putpixel pixels x y c (arrayIdx X Y WINDOW_WIDTH) =
      if x = X ∧ y = Y then color_values c else pixels (arrayIdx X Y WINDOW_WIDTH) := by
  unfold putpixel
  by_cases hin : x ≥ 0 ∧ x < WINDOW_WIDTH ∧ y ≥ 0 ∧ y < WINDOW_HEIGHT
  · rw [if_pos hin]
    have hin' : x ≥ 0 ∧ x < 640 ∧ y ≥ 0 ∧ y < 480 := hin
    by_cases hxy : x = X ∧ y = Y
    · rw [if_pos hxy, hxy.1, hxy.2, Function.update_same]
    · rw [if_neg hxy, Function.update_noteq]
      show X + Y * 640 ≠ x + y * 640
      omega
  · rw [if_neg hin]
    have hxy : ¬ (x = X ∧ y = Y) := by
      rintro ⟨rfl, rfl⟩
      exact hin ⟨hX.1, hX.2, hY.1, hY.2⟩
    rw [if_neg hxy]

theorem putpixel_outside (pixels : Int → Nat) (x y : Int) (c : color) (k : Int)
    (hk : ¬ (0 ≤ k ∧ k < 640 * 480)) : putpixel pixels x y c k = pixels k := by
  unfold putpixel
  split_ifs with hin
  · have hin' : x ≥ 0 ∧ x < 640 ∧ y ≥ 0 ∧ y < 480 := hin
    rw [Function.update_noteq]
    show k ≠ x + y * 640
    omega
  · rfl

/-- C13: for `(x, y)` inside the window `putpixel` stores `color_values[c]` at the index
`x + y * 640` and changes nothing else; for any other `(x, y)` it changes nothing; and in no
case does an index outside `[0, 640 * 480)` change. -/
theorem putpixel_spec (pixels : Int → Nat) (x y : Int) (c : color) :
    (0 ≤ x ∧ x < 640 → 0 ≤ y ∧ y < 480 →
      putpixel pixels x y c (x + y * 640) = color_values c ∧
      (0 ≤ x + y * 640 ∧ x + y * 640 < 640 * 480) ∧
      ∀ k : Int, k ≠ x + y * 640 → putpixel pixels x y c k = pixels k) ∧
    (¬ ((0 ≤ x ∧ x < 640) ∧ (0 ≤ y ∧ y < 480)) → putpixel pixels x y c = pixels) ∧
    (∀ k : Int, ¬ (0 ≤ k ∧ k < 640 * 480) → putpixel pixels x y c k = pixels k) := by
  refine ⟨fun hx hy => ?_, fun hout => ?_, fun k hk => putpixel_outside pixels x y c k hk⟩
  · have hin : x ≥ 0 ∧ x < WINDOW_WIDTH ∧ y ≥ 0 ∧ y < WINDOW_HEIGHT :=
      ⟨hx.1, hx.2, hy.1, hy.2⟩
    refine ⟨?_, by omega, fun k hk => ?_⟩
    · simp only [putpixel, hin, and_self, if_true, arrayIdx, Function.update_same]
    · simp only [putpixel, hin, and_self, if_true, arrayIdx]
      exact Function.update_noteq hk _ _
  · have hin : ¬ (x ≥ 0 ∧ x < WINDOW_WIDTH ∧ y ≥ 0 ∧ y < WINDOW_HEIGHT) :=
      fun h => hout ⟨⟨h.1, h.2.1⟩, ⟨h.2.2.1, h.2.2.2⟩⟩
    simp only [putpixel, hin, if_false]

/-- C13 for the pixel `(3, 1)` and for the point `(640, 0)` right of the window. -/
theorem putpixel_spec_witness :
    (putpixel init_app.pixels 3 1 color.WHITE (3 + 1 * 640) = color_values color.WHITE ∧
      (0 ≤ (3 : Int) + 1 * 640 ∧ (3 : Int) + 1 * 640 < 640 * 480) ∧
      ∀ k : Int, k ≠ 3 + 1 * 640 →
        putpixel init_app.pixels 3 1 color.WHITE k = init_app.pixels k) ∧
    putpixel init_app.pixels 640 0 color.WHITE = init_app.pixels :=
  ⟨(putpixel_spec init_app.pixels 3 1 color.WHITE).1 (by decide) (by decide),
    (putpixel_spec init_app.pixels 640 0 color.WHITE).2.1 (by decide)⟩

/-! ## Loops of writes -/

theorem fold_skips {α β : Type} (F : (Int → β) → α → (Int → β)) (l : List α) (k : Int)
    (h : ∀ v ∈ l, Skips k (fun b => F b v)) : Skips k (fun b => l.foldl F b) := by
  induction l with
  | nil => exact fun b => rfl
  | cons v l ih =>
    intro b
    show (l.foldl F (F b v)) k = b k
    exact (ih (fun w hw => h w (List.mem_cons_of_mem v hw)) (F b v)).trans
      (h v (List.mem_cons_self v l) b)

theorem fold_sets {α β : Type} (F : (Int → β) → α → (Int → β)) (l : List α) (k : Int) (a : β)
    (h : ∀ v ∈ l, Skips k (fun b => F b v) ∨ Sets k a (fun b => F b v))
    (hex : ∃ v ∈ l, Sets k a (fun b => F b v)) : Sets k a (fun b => l.foldl F b) := by
  induction l with
  | nil =>
    obtain ⟨v, hv, -⟩ := hex
    cases hv
  | cons v l ih =>
    intro b
    show (l.foldl F (F b v)) k = a
    have hl := fun w hw => h w (List.mem_cons_of_mem v hw)
    by_cases hex' : ∃ w ∈ l, Sets k a (fun b => F b w)
    · exact ih hl hex' (F b v)
    · have hskip : ∀ w ∈ l, Skips k (fun b => F b w) := by
        intro w hw
        rcases hl w hw with hs | hs
        · exact hs
        · exact absurd ⟨w, hw, hs⟩ hex'
      refine (fold_skips F l k hskip (F b v)).trans ?_
      obtain ⟨w, hw, hs⟩ := hex
      rcases List.mem_cons.mp hw with rfl | hw'
      · exact hs b
      · exact absurd ⟨w, hw', hs⟩ hex'

theorem fold_skips_or_sets {α β : Type} (F : (Int → β) → α → (Int → β)) (l : List α)
    (k : Int) (a : β)
    (h : ∀ v ∈ l, Skips k (fun b => F b v) ∨ Sets k a (fun b => F b v)) :
    Skips k (fun b => l.foldl F b) ∨ Sets k a (fun b => l.foldl F b) := by
  by_cases hex : ∃ v ∈ l, Sets k a (fun b => F b v)
  · exact Or.inr (fold_sets F l k a h hex)
  · refine Or.inl (fold_skips F l k (fun v hv => ?_))
    rcases h v hv with hs | hs
    · exact hs
    · exact absurd ⟨v, hv, hs⟩ hex

/-- A relation between two states that every loop body keeps is kept by the loop. -/
theorem foldl_rel {α σ : Type} (R : σ → σ → Prop) (F G : σ → α → σ) (l : List α)
    (h : ∀ v ∈ l, ∀ s1 s2, R s1 s2 → R (F s1 v) (G s2 v)) (s1 s2 : σ) (hs : R s1 s2) :
    R (l.foldl F s1) (l.foldl G s2) := by
  induction l generalizing s1 s2 with
  | nil => exact hs
  | cons v l ih =>
    exact ih (fun w hw => h w (List.mem_cons_of_mem v hw)) _ _
      (h v (List.mem_cons_self v l) s1 s2 hs)

/-! ## draw_rect -/

theorem putpixel_skips_or_sets (x y : Int) (c : color) (X Y : Int)
    (hX : 0 ≤ X ∧ X < 640) (hY : 0 ≤ Y ∧ Y < 480) :
    (¬ (x = X ∧ y = Y) → Skips (arrayIdx X Y WINDOW_WIDTH) (fun b => putpixel b x y c)) ∧
    ((x = X ∧ y = Y) →
      Sets (arrayIdx X Y WINDOW_WIDTH) (color_values c) (fun b => putpixel b x y c)) := by
  constructor
  · intro h b
    show putpixel b x y c (arrayIdx X Y WINDOW_WIDTH) = _
    rw [putpixel_apply b x y c X Y hX hY, if_neg h]
  · intro h b
    show putpixel b x y c (arrayIdx X Y WINDOW_WIDTH) = _
    rw [putpixel_apply b x y c X Y hX hY, if_pos h]

/-- Every pixel of the window after `draw_rect`. -/
theorem draw_rect_apply (pixels : Int → Nat) (x y w h : Int) (filled : Bool) (c : color)
    (X Y : Int) (hX : 0 ≤ X ∧ X < 640) (hY : 0 ≤ Y ∧ Y < 480) :
    draw_rect pixels x y w h filled c (arrayIdx X Y WINDOW_WIDTH) =
      if (x ≤ X ∧ X < x + w) ∧ (y ≤ Y ∧ Y < y + h) ∧
          (filled = true ∨ X = x ∨ X = x + w - 1 ∨ Y = y ∨ Y = y + h - 1) then
        color_values c
      else pixels (arrayIdx X Y WINDOW_WIDTH) := by
  have hpp := fun cx cy => putpixel_skips_or_sets cx cy c X Y hX hY
  -- every write of the two loops either leaves the pixel alone or stores the colour
  have hbody : ∀ cy cx : Int,
      Skips (arrayIdx X Y WINDOW_WIDTH) (fun b =>
        if (filled = false ∧ (cx = x ∨ cy = y ∨ cx = (x + w - 1) ∨ cy = (y + h - 1))) ∨
            (filled = true) then putpixel b cx cy c else b) ∨
      Sets (arrayIdx X Y WINDOW_WIDTH) (color_values c) (fun b =>
        if (filled = false ∧ (cx = x ∨ cy = y ∨ cx = (x + w - 1) ∨ cy = (y + h - 1))) ∨
            (filled = true) then putpixel b cx cy c else b) := by
    intro cy cx
    by_cases hc : (filled = false ∧ (cx = x ∨ cy = y ∨ cx = (x + w - 1) ∨ cy = (y + h - 1))) ∨
        (filled = true)
    · simp only [hc, if_true]
      by_cases hxy : cx = X ∧ cy = Y
      · exact Or.inr ((hpp cx cy).2 hxy)
      · exact Or.inl ((hpp cx cy).1 hxy)
    · simp only [hc, if_false]
      exact Or.inl (fun b => rfl)
  have hrow : ∀ cy : Int,
      Skips (arrayIdx X Y WINDOW_WIDTH) (fun b => (loopVals x (x + w) 1).foldl (fun px cx =>
        if (filled = false ∧ (cx = x ∨ cy = y ∨ cx = (x + w - 1) ∨ cy = (y + h - 1))) ∨
            (filled = true) then putpixel px cx cy c else px) b) ∨
      Sets (arrayIdx X Y WINDOW_WIDTH) (color_values c) (fun b =>
        (loopVals x (x + w) 1).foldl (fun px cx =>
        if (filled = false ∧ (cx = x ∨ cy = y ∨ cx = (x + w - 1) ∨ cy = (y + h - 1))) ∨
            (filled = true) then putpixel px cx cy c else px) b) :=
    fun cy => fold_skips_or_sets _ _ _ _ (fun cx _ => hbody cy cx)
  by_cases hcond : (x ≤ X ∧ X < x + w) ∧ (y ≤ Y ∧ Y < y + h) ∧
      (filled = true ∨ X = x ∨ X = x + w - 1 ∨ Y = y ∨ Y = y + h - 1)
  · rw [if_pos hcond]
    obtain ⟨hxr, hyr, hb⟩ := hcond
    refine fold_sets _ _ _ _ (fun cy _ => hrow cy) ⟨Y, (mem_loopVals_one _ _ _).mpr hyr, ?_⟩
      pixels
    refine fold_sets _ _ _ _ (fun cx _ => hbody Y cx) ⟨X, (mem_loopVals_one _ _ _).mpr hxr, ?_⟩
    have hc : (filled = false ∧ (X = x ∨ Y = y ∨ X = (x + w - 1) ∨ Y = (y + h - 1))) ∨
        (filled = true) := by
      cases filled
      · left
        refine ⟨rfl, ?_⟩
        rcases hb with hb | hb | hb | hb | hb
        · cases hb
        · exact Or.inl hb
        · exact Or.inr (Or.inr (Or.inl hb))
        · exact Or.inr (Or.inl hb)
        · exact Or.inr (Or.inr (Or.inr hb))
      · exact Or.inr rfl
    simp only [hc, if_true]
    exact (hpp X Y).2 ⟨rfl, rfl⟩
  · rw [if_neg hcond]
    refine fold_skips _ _ _ (fun cy hcy => ?_) pixels
    refine fold_skips _ _ _ (fun cx hcx => ?_)
    rw [mem_loopVals_one] at hcy hcx
    by_cases hc : (filled = false ∧ (cx = x ∨ cy = y ∨ cx = (x + w - 1) ∨ cy = (y + h - 1))) ∨
        (filled = true)
    · simp only [hc, if_true]
      refine (hpp cx cy).1 ?_
      rintro ⟨rfl, rfl⟩
      refine hcond ⟨hcx, hcy, ?_⟩
      rcases hc with ⟨-, hb | hb | hb | hb⟩ | hb
      · exact Or.inr (Or.inl hb)
      · exact Or.inr (Or.inr (Or.inr (Or.inl hb)))
      · exact Or.inr (Or.inr (Or.inl hb))
      · exact Or.inr (Or.inr (Or.inr (Or.inr hb)))
      · exact Or.inl hb
    · simp only [hc, if_false]
      exact fun b => rfl

theorem draw_rect_outside (pixels : Int → Nat) (x y w h : Int) (filled : Bool) (c : color)
    (k : Int) (hk : ¬ (0 ≤ k ∧ k < 640 * 480)) :
    draw_rect pixels x y w h filled c k = pixels k := by
  refine fold_skips _ _ _ (fun cy _ => ?_) pixels
  refine fold_skips _ _ _ (fun cx _ => ?_)
  intro b
  show (if _ then putpixel b cx cy c else b) k = b k
  split_ifs
  · exact putpixel_outside b cx cy c k hk
  · rfl

/-- C14: after `draw_rect` a pixel `(px, py)` of the window holds the colour `c` when it is
in the box `x <= px < x+w`, `y <= py < y+h` and the box is filled or the pixel is on its
first or last column or row; every other pixel of the window, and every index outside the
buffer, keeps its value. -/
theorem draw_rect_spec (pixels : Int → Nat) (x y w h : Int) (filled : Bool) (c : color) :
    (∀ px py : Int, 0 ≤ px ∧ px < WINDOW_WIDTH → 0 ≤ py ∧ py < WINDOW_HEIGHT →
      ((x ≤ px ∧ px < x + w) ∧ (y ≤ py ∧ py < y + h) ∧
          (filled = true ∨ px = x ∨ px = x + w - 1 ∨ py = y ∨ py = y + h - 1) →
        draw_rect pixels x y w h filled c (arrayIdx px py WINDOW_WIDTH) = color_values c) ∧
      (¬ ((x ≤ px ∧ px < x + w) ∧ (y ≤ py ∧ py < y + h) ∧
          (filled = true ∨ px = x ∨ px = x + w - 1 ∨ py = y ∨ py = y + h - 1)) →
        draw_rect pixels x y w h filled c (arrayIdx px py WINDOW_WIDTH) =
          pixels (arrayIdx px py WINDOW_WIDTH))) ∧
    (∀ k : Int, ¬ (0 ≤ k ∧ k < WINDOW_WIDTH * WINDOW_HEIGHT) →
      draw_rect pixels x y w h filled c k = pixels k) := by
  refine ⟨fun px py hpx hpy => ⟨fun hc => ?_, fun hc => ?_⟩,
    fun k hk => draw_rect_outside pixels x y w h filled c k hk⟩
  · rw [draw_rect_apply pixels x y w h filled c px py hpx hpy, if_pos hc]
  · rw [draw_rect_apply pixels x y w h filled c px py hpx hpy, if_neg hc]

/-- C14 for the outline of the cell `(0, 0)`: the corner pixel `(2, 2)` is drawn and the
inner pixel `(5, 5)` is not. -/
theorem draw_rect_spec_witness :
    draw_rect init_app.pixels 2 2 18 18 false color.WHITE (arrayIdx 2 2 WINDOW_WIDTH) =
      color_values color.WHITE ∧
    draw_rect init_app.pixels 2 2 18 18 false color.WHITE (arrayIdx 5 5 WINDOW_WIDTH) =
      init_app.pixels (arrayIdx 5 5 WINDOW_WIDTH) :=
  ⟨((draw_rect_spec init_app.pixels 2 2 18 18 false color.WHITE).1 2 2
      (by decide) (by decide)).1 (by decide),
    ((draw_rect_spec init_app.pixels 2 2 18 18 false color.WHITE).1 5 5
      (by decide) (by decide)).2 (by decide)⟩

/-! ## draw_button_icon -/

theorem shift_and_one (n j : Nat) : ((n >>> j) &&& 1 ≠ 0) ↔ n.testBit j = true := by
  simp [Nat.testBit, Nat.land_comm]

theorem block_unique (s h h0 n n0 : Int) (hh : 0 ≤ h ∧ h < 8) (hh0 : 0 ≤ h0 ∧ h0 < 8)
    (hn : 0 ≤ n ∧ n < s) (hn0 : 0 ≤ n0 ∧ n0 < s) (e : h * s + n = h0 * s + n0) :
    h = h0 ∧ n = n0 := by
  obtain ⟨h1, h2⟩ := hh
  obtain ⟨h3, h4⟩ := hh0
  interval_cases h <;> interval_cases h0 <;> omega

theorem block_range (s h n : Int) (hh : 0 ≤ h ∧ h < 8) (hn : 0 ≤ n ∧ n < s) :
    0 ≤ h * s + n ∧ h * s + n < 8 * s := by
  obtain ⟨h1, h2⟩ := hh
  interval_cases h <;> omega

/-- The loops of `draw_button_icon`, with the colour of a block written as
`icon_color`. -/
theorem draw_button_icon_eq (pixels : Int → Nat) (x y pad scale : Int) (icn : icon)
    (fg bg : color) :
    draw_button_icon pixels x y pad scale icn fg bg =
      (loopVals 0 8 1).foldl (fun px v =>
        (loopVals 0 8 1).foldl (fun px h =>
          (loopVals 0 scale 1).foldl (fun px ny =>
            (loopVals 0 scale 1).foldl (fun px nx =>
              putpixel px (x + pad + (h * scale) + nx) (y + pad + (v * scale) + ny)
                (icon_color icn v h fg bg)) px) px) px) pixels := by
  have hc : ∀ v h : Int,
      (if ((icons icn).getD v.toNat 0 >>> (7 - h).toNat) &&& 0x01 ≠ 0 then fg else bg) =
        icon_color icn v h fg bg := by
    intro v h
    unfold icon_color
    by_cases hb : ((icons icn).getD v.toNat 0).testBit (7 - h).toNat = true
    · rw [if_pos hb, if_pos ((shift_and_one _ _).mpr hb)]
    · rw [if_neg hb, if_neg (fun hn => hb ((shift_and_one _ _).mp hn))]
  unfold draw_button_icon
  simp only [hc]

/-- Every pixel of a block after `draw_button_icon`, and every pixel outside the square of
the icon. -/
theorem draw_button_icon_apply (pixels : Int → Nat) (x y pad scale : Int) (icn : icon)
    (fg bg : color) (X Y : Int) (hX : 0 ≤ X ∧ X < 640) (hY : 0 ≤ Y ∧ Y < 480) :
    (∀ v h nx ny : Int, 0 ≤ v ∧ v < 8 → 0 ≤ h ∧ h < 8 → 0 ≤ nx ∧ nx < scale →
      0 ≤ ny ∧ ny < scale → X = x + pad + (h * scale) + nx → Y = y + pad + (v * scale) + ny →
      draw_button_icon pixels x y pad scale icn fg bg (arrayIdx X Y WINDOW_WIDTH) =
        color_values (icon_color icn v h fg bg)) ∧
    (¬ ((x + pad ≤ X ∧ X < x + pad + 8 * scale) ∧ (y + pad ≤ Y ∧ Y < y + pad + 8 * scale)) →
      draw_button_icon pixels x y pad scale icn fg bg (arrayIdx X Y WINDOW_WIDTH) =
        pixels (arrayIdx X Y WINDOW_WIDTH)) := by
  have hpp := fun cx cy c => putpixel_skips_or_sets cx cy c X Y hX hY
  rw [draw_button_icon_eq]
  constructor
  · intro v0 h0 nx0 ny0 hv0 hh0 hnx0 hny0 eX eY
    -- every write either misses the pixel or belongs to the block `(v0, h0)`
    have hbody : ∀ v ∈ loopVals 0 8 1, ∀ h ∈ loopVals 0 8 1, ∀ ny ∈ loopVals 0 scale 1,
        ∀ nx ∈ loopVals 0 scale 1,
        Skips (arrayIdx X Y WINDOW_WIDTH) (fun b =>
          putpixel b (x + pad + (h * scale) + nx) (y + pad + (v * scale) + ny)
            (icon_color icn v h fg bg)) ∨
        Sets (arrayIdx X Y WINDOW_WIDTH) (color_values (icon_color icn v0 h0 fg bg)) (fun b =>
          putpixel b (x + pad + (h * scale) + nx) (y + pad + (v * scale) + ny)
            (icon_color icn v h fg bg)) := by
      intro v hv h hh ny hny nx hnx
      rw [mem_loopVals_one] at hv hh hny hnx
      by_cases hxy : x + pad + (h * scale) + nx = X ∧ y + pad + (v * scale) + ny = Y
      · have e1 := block_unique scale h h0 nx nx0 (by omega) hh0 (by omega) hnx0 (by omega)
        have e2 := block_unique scale v v0 ny ny0 (by omega) hv0 (by omega) hny0 (by omega)
        have hs := (hpp _ _ (icon_color icn v h fg bg)).2 hxy
        rw [e1.1, e2.1] at hs
        rw [e1.1, e2.1]
        exact Or.inr hs
      · exact Or.inl ((hpp _ _ _).1 hxy)
    have m8 : ∀ a : Int, 0 ≤ a ∧ a < 8 → a ∈ loopVals 0 8 1 := fun a ha =>
      (mem_loopVals_one 0 8 a).mpr ha
    have ms : ∀ a : Int, 0 ≤ a ∧ a < scale → a ∈ loopVals 0 scale 1 := fun a ha =>
      (mem_loopVals_one 0 scale a).mpr ha
    refine fold_sets _ _ _ _ (fun v hv => fold_skips_or_sets _ _ _ _ (fun h hh =>
      fold_skips_or_sets _ _ _ _ (fun ny hny => fold_skips_or_sets _ _ _ _ (fun nx hnx =>
        hbody v hv h hh ny hny nx hnx)))) ⟨v0, m8 v0 hv0, ?_⟩ pixels
    refine fold_sets _ _ _ _ (fun h hh => fold_skips_or_sets _ _ _ _ (fun ny hny =>
      fold_skips_or_sets _ _ _ _ (fun nx hnx => hbody v0 (m8 v0 hv0) h hh ny hny nx hnx)))
      ⟨h0, m8 h0 hh0, ?_⟩
    refine fold_sets _ _ _ _ (fun ny hny => fold_skips_or_sets _ _ _ _ (fun nx hnx =>
      hbody v0 (m8 v0 hv0) h0 (m8 h0 hh0) ny hny nx hnx)) ⟨ny0, ms ny0 hny0, ?_⟩
    refine fold_sets _ _ _ _ (fun nx hnx =>
      hbody v0 (m8 v0 hv0) h0 (m8 h0 hh0) ny0 (ms ny0 hny0) nx hnx) ⟨nx0, ms nx0 hnx0, ?_⟩
    exact (hpp _ _ _).2 ⟨eX.symm, eY.symm⟩
  · intro hout
    refine fold_skips _ _ _ (fun v hv => fold_skips _ _ _ (fun h hh =>
      fold_skips _ _ _ (fun ny hny => fold_skips _ _ _ (fun nx hnx => ?_)))) pixels
    rw [mem_loopVals_one] at hv hh hny hnx
    refine (hpp _ _ _).1 ?_
    rintro ⟨e1, e2⟩
    have r1 := block_range scale h nx (by omega) (by omega)
    have r2 := block_range scale v ny (by omega) (by omega)
    exact hout (by omega)

theorem draw_button_icon_outside (pixels : Int → Nat) (x y pad scale : Int) (icn : icon)
    (fg bg : color) (k : Int) (hk : ¬ (0 ≤ k ∧ k < 640 * 480)) :
    draw_button_icon pixels x y pad scale icn fg bg k = pixels k := by
  rw [draw_button_icon_eq]
  refine fold_skips _ _ _ (fun v _ => fold_skips _ _ _ (fun h _ =>
    fold_skips _ _ _ (fun ny _ => fold_skips _ _ _ (fun nx _ => ?_)))) pixels
  exact fun b => putpixel_outside b _ _ _ k hk

/-- C15: `draw_button_icon` leaves every window pixel
`(x + pad + h*scale + nx, y + pad + v*scale + ny)` with `v`, `h` in `0..7` and `nx`, `ny` in
`0..scale-1` in the foreground colour when bit `7 - h` of `icons[icn][v]` is set and in the
background colour otherwise; window pixels outside the square of side `8 * scale`, and
indices outside the buffer, keep their value.  For the icon `BUTTON_ON` at the origin with
scale 1, the pixels `(3, 1)` and `(4, 1)` get the foreground and the other six pixels of
row 1 the background. -/
theorem draw_button_icon_spec (pixels : Int → Nat) (fg bg : color) :
    (∀ (x y pad scale : Int) (icn : icon), 1 ≤ scale →
      (∀ v h nx ny : Int, 0 ≤ v ∧ v < 8 → 0 ≤ h ∧ h < 8 → 0 ≤ nx ∧ nx < scale →
        0 ≤ ny ∧ ny < scale →
        0 ≤ x + pad + h * scale + nx ∧ x + pad + h * scale + nx < WINDOW_WIDTH →
        0 ≤ y + pad + v * scale + ny ∧ y + pad + v * scale + ny < WINDOW_HEIGHT →
        draw_button_icon pixels x y pad scale icn fg bg
            (arrayIdx (x + pad + h * scale + nx) (y + pad + v * scale + ny) WINDOW_WIDTH) =
          color_values
            (if ((icons icn).getD v.toNat 0).testBit (7 - h).toNat = true then fg else bg)) ∧
      (∀ X Y : Int, 0 ≤ X ∧ X < WINDOW_WIDTH → 0 ≤ Y ∧ Y < WINDOW_HEIGHT →
        ¬ ((x + pad ≤ X ∧ X < x + pad + 8 * scale) ∧
          (y + pad ≤ Y ∧ Y < y + pad + 8 * scale)) →
        draw_button_icon pixels x y pad scale icn fg bg (arrayIdx X Y WINDOW_WIDTH) =
          pixels (arrayIdx X Y WINDOW_WIDTH)) ∧
      (∀ k : Int, ¬ (0 ≤ k ∧ k < WINDOW_WIDTH * WINDOW_HEIGHT) →
        draw_button_icon pixels x y pad scale icn fg bg k = pixels k)) ∧
    (draw_button_icon pixels 0 0 0 1 icon.BUTTON_ON fg bg (arrayIdx 3 1 WINDOW_WIDTH) =
        color_values fg ∧
      draw_button_icon pixels 0 0 0 1 icon.BUTTON_ON fg bg (arrayIdx 4 1 WINDOW_WIDTH) =
        color_values fg ∧
      ∀ X ∈ [0, 1, 2, 5, 6, 7],
        draw_button_icon pixels 0 0 0 1 icon.BUTTON_ON fg bg (arrayIdx X 1 WINDOW_WIDTH) =
          color_values bg) := by
  have main := fun (x y pad scale : Int) (icn : icon) (v h nx ny : Int) hv hh hnx hny hX hY =>
    (draw_button_icon_apply pixels x y pad scale icn fg bg (x + pad + h * scale + nx)
      (y + pad + v * scale + ny) hX hY).1 v h nx ny hv hh hnx hny rfl rfl
  refine ⟨fun x y pad scale icn _ => ⟨?_, ?_, ?_⟩, ?_, ?_, ?_⟩
  · intro v h nx ny hv hh hnx hny hX hY
    exact main x y pad scale icn v h nx ny hv hh hnx hny hX hY
  · intro X Y hX hY hout
    exact (draw_button_icon_apply pixels x y pad scale icn fg bg X Y hX hY).2 hout
  · intro k hk
    exact draw_button_icon_outside pixels x y pad scale icn fg bg k hk
  · exact main 0 0 0 1 icon.BUTTON_ON 1 3 0 0 (by decide) (by decide) (by decide) (by decide)
      (by decide) (by decide)
  · exact main 0 0 0 1 icon.BUTTON_ON 1 4 0 0 (by decide) (by decide) (by decide) (by decide)
      (by decide) (by decide)
  · intro X hX
    simp only [List.mem_cons, List.mem_singleton, List.not_mem_nil, or_false] at hX
    rcases hX with rfl | rfl | rfl | rfl | rfl | rfl
    · exact main 0 0 0 1 icon.BUTTON_ON 1 0 0 0 (by decide) (by decide) (by decide)
        (by decide) (by decide) (by decide)
    · exact main 0 0 0 1 icon.BUTTON_ON 1 1 0 0 (by decide) (by decide) (by decide)
        (by decide) (by decide) (by decide)
    · exact main 0 0 0 1 icon.BUTTON_ON 1 2 0 0 (by decide) (by decide) (by decide)
        (by decide) (by decide) (by decide)
    · exact main 0 0 0 1 icon.BUTTON_ON 1 5 0 0 (by decide) (by decide) (by decide)
        (by decide) (by decide) (by decide)
    · exact main 0 0 0 1 icon.BUTTON_ON 1 6 0 0 (by decide) (by decide) (by decide)
        (by decide) (by decide) (by decide)
    · exact main 0 0 0 1 icon.BUTTON_ON 1 7 0 0 (by decide) (by decide) (by decide)
        (by decide) (by decide) (by decide)

/-- C15 for the Clear icon of button 3 as `draw_ui` draws it (at `(120, 440)`, padding 5,
scale 4): the pixel `(130, 450)` of the block in row 1, column 1 gets the foreground. -/
theorem draw_button_icon_spec_witness :
    (1 : Int) ≤ 4 ∧
    draw_button_icon init_app.pixels 120 440 5 4 icon.BUTTON_CLEAR color.BLACK color.WHITE
        (arrayIdx (120 + 5 + 1 * 4 + 1) (440 + 5 + 1 * 4 + 1) WINDOW_WIDTH) =
      color_values
        (if ((icons icon.BUTTON_CLEAR).getD (1 : Int).toNat 0).testBit (7 - (1 : Int)).toNat
          = true then color.BLACK else color.WHITE) :=
  ⟨by decide,
    ((draw_button_icon_spec init_app.pixels color.BLACK color.WHITE).1 120 440 5 4
      icon.BUTTON_CLEAR (by decide)).1 1 1 1 1 (by decide) (by decide) (by decide) (by decide)
      (by decide) (by decide)⟩

/-! ## clear and draw_grid -/

theorem clear_apply (pixels : Int → Nat) (c : color) (k : Int)
    (hk : 0 ≤ k ∧ k < 640 * 480) : clear pixels c k = color_values c := by
  have hk' : 0 ≤ k ∧ k < WINDOW_HEIGHT * WINDOW_WIDTH := by
    show 0 ≤ k ∧ k < 480 * 640
    omega
  refine fold_sets _ _ _ _ (fun idx _ => ?_) ⟨k, (mem_loopVals_one _ _ _).mpr hk', ?_⟩ pixels
  · by_cases h : idx = k
    · subst h
      exact Or.inr (fun b => Function.update_same _ _ _)
    · exact Or.inl (fun b => Function.update_noteq (Ne.symm h) _ _)
  · exact fun b => Function.update_same _ _ _

theorem clear_outside (pixels : Int → Nat) (c : color) (k : Int)
    (hk : ¬ (0 ≤ k ∧ k < 640 * 480)) : clear pixels c k = pixels k := by
  refine fold_skips _ _ _ (fun idx hidx => ?_) pixels
  rw [mem_loopVals_one] at hidx
  have hidx' : 0 ≤ idx ∧ idx < 480 * 640 := hidx
  intro b
  refine Function.update_noteq ?_ _ _
  omega

/-- The loops of `draw_grid` as one loop over the corners paired with the running index;
the index ends at `32 * 22`. -/
theorem draw_grid_loop_indexed (cells : Int → Bool) (pixels : Int → Nat) :
    draw_grid_loop cells pixels =
      ((indexed 0 corner_order).foldl (fun px p =>
        draw_rect px (p.2.1 + CELL_PAD) (p.2.2 + CELL_PAD) (CELL_SIZE - CELL_PAD)
          (CELL_SIZE - CELL_PAD) (cells p.1) color.WHITE) pixels, 704) := by
  have h := foldl_nested (fun (st : (Int → Nat) × Int) cx cy =>
      (draw_rect st.1 (cx + CELL_PAD) (cy + CELL_PAD) (CELL_SIZE - CELL_PAD)
          (CELL_SIZE - CELL_PAD) (cells st.2) color.WHITE, st.2 + 1))
    (loopVals 0 WINDOW_WIDTH CELL_SIZE) (loopVals 0 (WINDOW_HEIGHT - ICON_SIZE) CELL_SIZE)
    (pixels, 0)
  have h2 := foldl_counter (fun (b : Int → Nat) (idx : Int) (p : Int × Int) =>
      draw_rect b (p.1 + CELL_PAD) (p.2 + CELL_PAD) (CELL_SIZE - CELL_PAD)
        (CELL_SIZE - CELL_PAD) (cells idx) color.WHITE) corner_order pixels 0
  unfold draw_grid_loop
  rw [h]
  change corner_order.foldl _ _ = _
  rw [h2, corner_order_length]

/-- The running index of `draw_grid` at the corner `(cx, cy)` is the index of the cell
`(cx / 20, cy / 20)`. -/
theorem indexed_corner_order_mem (p : Int × Int × Int) (hp : p ∈ indexed 0 corner_order) :
    (0 ≤ p.2.1 / 20 ∧ p.2.1 / 20 < 32) ∧ (0 ≤ p.2.2 / 20 ∧ p.2.2 / 20 < 22) ∧
    p.2.1 = 20 * (p.2.1 / 20) ∧ p.2.2 = 20 * (p.2.2 / 20) ∧
    p.1 = arrayIdx (p.2.1 / 20) (p.2.2 / 20) N_CELLS_X ∧ (0 ≤ p.1 ∧ p.1 < 704) := by
  rw [indexed_corner_order, List.mem_map] at hp
  obtain ⟨q, hq, rfl⟩ := hp
  rw [mem_cell_order] at hq
  simp only [arrayIdx, N_CELLS_X_eq]
  show (0 ≤ 20 * q.1 / 20 ∧ 20 * q.1 / 20 < 32) ∧ (0 ≤ 20 * q.2 / 20 ∧ 20 * q.2 / 20 < 22) ∧
    20 * q.1 = 20 * (20 * q.1 / 20) ∧ 20 * q.2 = 20 * (20 * q.2 / 20) ∧
    q.1 + q.2 * 32 = 20 * q.1 / 20 + 20 * q.2 / 20 * 32 ∧
    (0 ≤ q.1 + q.2 * 32 ∧ q.1 + q.2 * 32 < 704)
  omega

theorem draw_grid_eq (cells : Int → Bool) (pixels : Int → Nat) :
    draw_grid cells pixels =
      cell_order.foldl (fun px p => draw_rect px (20 * p.1 + 2) (20 * p.2 + 2) 18 18
        (cells (arrayIdx p.1 p.2 N_CELLS_X)) color.WHITE) pixels := by
  unfold draw_grid
  rw [draw_grid_loop_indexed, indexed_corner_order, List.foldl_map]
  dsimp only
  refine congrArg (fun f => List.foldl f pixels cell_order) ?_
  funext px p
  rfl

/-- Every pixel of the grid area after `draw_grid`. -/
theorem draw_grid_apply (cells : Int → Bool) (pixels : Int → Nat) (i j a b : Int)
    (hi : 0 ≤ i ∧ i < 32) (hj : 0 ≤ j ∧ j < 22) (ha : 0 ≤ a ∧ a < 20) (hb : 0 ≤ b ∧ b < 20) :
    draw_grid cells pixels (arrayIdx (20 * i + a) (20 * j + b) WINDOW_WIDTH) =
      if 2 ≤ a ∧ 2 ≤ b ∧
          (cells (arrayIdx i j N_CELLS_X) = true ∨ a = 2 ∨ a = 19 ∨ b = 2 ∨ b = 19) then
        color_values color.WHITE
      else pixels (arrayIdx (20 * i + a) (20 * j + b) WINDOW_WIDTH) := by
  have hX : 0 ≤ 20 * i + a ∧ 20 * i + a < 640 := by omega
  have hY : 0 ≤ 20 * j + b ∧ 20 * j + b < 480 := by omega
  have hdr := fun (px : Int → Nat) (p : Int × Int) =>
    draw_rect_apply px (20 * p.1 + 2) (20 * p.2 + 2) 18 18
      (cells (arrayIdx p.1 p.2 N_CELLS_X)) color.WHITE (20 * i + a) (20 * j + b) hX hY
  -- only the rectangle of the cell `(i, j)` can reach the pixel
  have hown : ∀ p : Int × Int,
      ((20 * p.1 + 2 ≤ 20 * i + a ∧ 20 * i + a < 20 * p.1 + 2 + 18) ∧
        (20 * p.2 + 2 ≤ 20 * j + b ∧ 20 * j + b < 20 * p.2 + 2 + 18) ∧
        (cells (arrayIdx p.1 p.2 N_CELLS_X) = true ∨ 20 * i + a = 20 * p.1 + 2 ∨
          20 * i + a = 20 * p.1 + 2 + 18 - 1 ∨ 20 * j + b = 20 * p.2 + 2 ∨
          20 * j + b = 20 * p.2 + 2 + 18 - 1)) →
      p = (i, j) ∧ (2 ≤ a ∧ 2 ≤ b ∧
          (cells (arrayIdx i j N_CELLS_X) = true ∨ a = 2 ∨ a = 19 ∨ b = 2 ∨ b = 19)) := by
    rintro ⟨p1, p2⟩ ⟨h1, h2, h3⟩
    have e1 : p1 = i := by omega
    have e2 : p2 = j := by omega
    subst e1 e2
    refine ⟨rfl, by omega, by omega, ?_⟩
    rcases h3 with h3 | h3 | h3 | h3 | h3
    · exact Or.inl h3
    · exact Or.inr (Or.inl (by omega))
    · exact Or.inr (Or.inr (Or.inl (by omega)))
    · exact Or.inr (Or.inr (Or.inr (Or.inl (by omega))))
    · exact Or.inr (Or.inr (Or.inr (Or.inr (by omega))))
  have hbody : ∀ p ∈ cell_order,
      Skips (arrayIdx (20 * i + a) (20 * j + b) WINDOW_WIDTH) (fun px =>
        draw_rect px (20 * p.1 + 2) (20 * p.2 + 2) 18 18
          (cells (arrayIdx p.1 p.2 N_CELLS_X)) color.WHITE) ∨
      Sets (arrayIdx (20 * i + a) (20 * j + b) WINDOW_WIDTH) (color_values color.WHITE)
        (fun px => draw_rect px (20 * p.1 + 2) (20 * p.2 + 2) 18 18
          (cells (arrayIdx p.1 p.2 N_CELLS_X)) color.WHITE) := by
    intro p _
    by_cases hc : ((20 * p.1 + 2 ≤ 20 * i + a ∧ 20 * i + a < 20 * p.1 + 2 + 18) ∧
        (20 * p.2 + 2 ≤ 20 * j + b ∧ 20 * j + b < 20 * p.2 + 2 + 18) ∧
        (cells (arrayIdx p.1 p.2 N_CELLS_X) = true ∨ 20 * i + a = 20 * p.1 + 2 ∨
          20 * i + a = 20 * p.1 + 2 + 18 - 1 ∨ 20 * j + b = 20 * p.2 + 2 ∨
          20 * j + b = 20 * p.2 + 2 + 18 - 1))
    · exact Or.inr (fun px => (hdr px p).trans (if_pos hc))
    · exact Or.inl (fun px => (hdr px p).trans (if_neg hc))
  rw [draw_grid_eq]
  by_cases hcond : 2 ≤ a ∧ 2 ≤ b ∧
      (cells (arrayIdx i j N_CELLS_X) = true ∨ a = 2 ∨ a = 19 ∨ b = 2 ∨ b = 19)
  · rw [if_pos hcond]
    refine fold_sets _ _ _ _ hbody ⟨(i, j), (mem_cell_order _).mpr ⟨hi, hj⟩, ?_⟩ pixels
    intro px
    refine (hdr px (i, j)).trans (if_pos ?_)
    obtain ⟨h1, h2, h3⟩ := hcond
    refine ⟨by omega, by omega, ?_⟩
    rcases h3 with h3 | h3 | h3 | h3 | h3
    · exact Or.inl h3
    · exact Or.inr (Or.inl (by omega))
    · exact Or.inr (Or.inr (Or.inl (by omega)))
    · exact Or.inr (Or.inr (Or.inr (Or.inl (by omega))))
    · exact Or.inr (Or.inr (Or.inr (Or.inr (by omega))))
  · rw [if_neg hcond]
    refine fold_skips _ _ _ (fun p _ => ?_) pixels
    intro px
    refine (hdr px p).trans (if_neg ?_)
    intro hc
    exact hcond (hown p hc).2

/-- C17: after `clear(BLACK)` and `draw_grid`, the pixel `(20*i + a, 20*j + b)` of the cell
`(i, j)` is WHITE when `a >= 2`, `b >= 2` and the cell is alive or the pixel is on the
outline (`a` or `b` is 2 or 19), and BLACK otherwise; the two colours differ.  The loops of
`draw_grid` run over the corners with a running index that is the index of the cell of the
corner, stays below `32 * 22` and ends at `32 * 22`. -/
theorem draw_grid_spec (cells : Int → Bool) (pixels : Int → Nat) :
    (∀ i j a b : Int, 0 ≤ i ∧ i < 32 → 0 ≤ j ∧ j < 22 → 0 ≤ a ∧ a < 20 → 0 ≤ b ∧ b < 20 →
      draw_grid cells (clear pixels color.BLACK)
          (arrayIdx (20 * i + a) (20 * j + b) WINDOW_WIDTH) =
        if a ≥ 2 ∧ b ≥ 2 ∧
            (cells (arrayIdx i j 32) = true ∨ a = 2 ∨ a = 19 ∨ b = 2 ∨ b = 19) then
          color_values color.WHITE
        else color_values color.BLACK) ∧
    color_values color.WHITE ≠ color_values color.BLACK ∧
    draw_grid_loop cells pixels =
      ((indexed 0 corner_order).foldl (fun px p =>
        draw_rect px (p.2.1 + CELL_PAD) (p.2.2 + CELL_PAD) (CELL_SIZE - CELL_PAD)
          (CELL_SIZE - CELL_PAD) (cells p.1) color.WHITE) pixels, N_CELLS_X * N_CELLS_Y) ∧
    (∀ p ∈ indexed 0 corner_order,
      p.1 = arrayIdx (p.2.1 / CELL_SIZE) (p.2.2 / CELL_SIZE) 32 ∧
      (0 ≤ p.1 ∧ p.1 < N_CELLS_X * N_CELLS_Y)) ∧
    (∀ i j : Int, 0 ≤ i ∧ i < 32 → 0 ≤ j ∧ j < 22 →
      (arrayIdx i j 32, (CELL_SIZE * i, CELL_SIZE * j)) ∈ indexed 0 corner_order) := by
  refine ⟨fun i j a b hi hj ha hb => ?_, by decide, draw_grid_loop_indexed cells pixels,
    fun p hp => ?_, fun i j hi hj => ?_⟩
  · rw [draw_grid_apply cells _ i j a b hi hj ha hb,
      clear_apply pixels color.BLACK _ (by
        show 0 ≤ 20 * i + a + (20 * j + b) * 640 ∧ 20 * i + a + (20 * j + b) * 640 < 640 * 480
        omega)]
    rfl
  · have h := indexed_corner_order_mem p hp
    exact ⟨h.2.2.2.2.1, h.2.2.2.2.2⟩
  · rw [indexed_corner_order, List.mem_map]
    exact ⟨(i, j), (mem_cell_order _).mpr ⟨hi, hj⟩, rfl⟩

/-- C17 for the cell `(5, 5)` of the sample grid, which is alive: its inner pixel
`(105, 105)` is WHITE. -/
theorem draw_grid_spec_witness :
    draw_grid sample_state.cells (clear sample_state.pixels color.BLACK)
        (arrayIdx (20 * 5 + 5) (20 * 5 + 5) WINDOW_WIDTH) =
      if (5 : Int) ≥ 2 ∧ (5 : Int) ≥ 2 ∧
          (sample_state.cells (arrayIdx 5 5 32) = true ∨ (5 : Int) = 2 ∨ (5 : Int) = 19 ∨
            (5 : Int) = 2 ∨ (5 : Int) = 19) then
        color_values color.WHITE
      else color_values color.BLACK :=
  (draw_grid_spec sample_state.cells sample_state.pixels).1 5 5 5 5
    (by decide) (by decide) (by decide) (by decide)

/-! ## Full repaint -/

theorem putpixel_same_window (x y : Int) (c : color) (b1 b2 : Int → Nat)
    (h : same_window b1 b2) : same_window (putpixel b1 x y c) (putpixel b2 x y c) := by
  intro k hk
  unfold putpixel
  split_ifs
  · by_cases e : k = arrayIdx x y WINDOW_WIDTH
    · rw [e, Function.update_same, Function.update_same]
    · rw [Function.update_noteq e, Function.update_noteq e]
      exact h k hk
  · exact h k hk

theorem draw_rect_same_window (x y w h : Int) (filled : Bool) (c : color) (b1 b2 : Int → Nat)
    (hb : same_window b1 b2) :
    same_window (draw_rect b1 x y w h filled c) (draw_rect b2 x y w h filled c) := by
  refine foldl_rel same_window _ _ _ (fun cy _ s1 s2 hs => ?_) b1 b2 hb
  refine foldl_rel same_window _ _ _ (fun cx _ t1 t2 ht => ?_) s1 s2 hs
  dsimp only
  split_ifs
  · exact putpixel_same_window cx cy c t1 t2 ht
  · exact ht

theorem draw_grid_same_window (cells : Int → Bool) (b1 b2 : Int → Nat)
    (hb : same_window b1 b2) : same_window (draw_grid cells b1) (draw_grid cells b2) := by
  have h := foldl_rel same_window
    (fun (px : Int → Nat) (p : Int × Int) => draw_rect px (20 * p.1 + 2) (20 * p.2 + 2) 18 18
      (cells (arrayIdx p.1 p.2 N_CELLS_X)) color.WHITE)
    (fun (px : Int → Nat) (p : Int × Int) => draw_rect px (20 * p.1 + 2) (20 * p.2 + 2) 18 18
      (cells (arrayIdx p.1 p.2 N_CELLS_X)) color.WHITE) cell_order
    (fun p _ s1 s2 hs => draw_rect_same_window _ _ _ _ _ _ s1 s2 hs) b1 b2 hb
  rw [draw_grid_eq, draw_grid_eq]
  exact h

theorem draw_button_icon_same_window (x y pad scale : Int) (icn : icon) (fg bg : color)
    (b1 b2 : Int → Nat) (hb : same_window b1 b2) :
    same_window (draw_button_icon b1 x y pad scale icn fg bg)
      (draw_button_icon b2 x y pad scale icn fg bg) := by
  rw [draw_button_icon_eq, draw_button_icon_eq]
  refine foldl_rel same_window _ _ _ (fun v _ s1 s2 hs => ?_) b1 b2 hb
  refine foldl_rel same_window _ _ _ (fun h _ t1 t2 ht => ?_) s1 s2 hs
  refine foldl_rel same_window _ _ _ (fun ny _ u1 u2 hu => ?_) t1 t2 ht
  refine foldl_rel same_window _ _ _ (fun nx _ w1 w2 hw => ?_) u1 u2 hu
  exact putpixel_same_window _ _ _ w1 w2 hw

theorem draw_ui_same_window (buttons : Int → button) (b1 b2 : Int → Nat)
    (hb : same_window b1 b2) : same_window (draw_ui buttons b1) (draw_ui buttons b2) := by
  refine foldl_rel same_window _ _ _ (fun i _ s1 s2 hs => ?_) b1 b2 hb
  exact draw_button_icon_same_window _ _ _ _ _ _ _ s1 s2 hs

theorem clear_same_window (c : color) (b1 b2 : Int → Nat) :
    same_window (clear b1 c) (clear b2 c) := by
  intro k hk
  have hk' : 0 ≤ k ∧ k < 640 * 480 := by
    have : 0 ≤ k ∧ k < 480 * 640 := hk
    omega
  rw [clear_apply b1 c k hk', clear_apply b2 c k hk']

/-- C18 (full repaint): the pixels of the window after the drawing part of `redraw`
(`clear(BLACK)`, `draw_grid`, `draw_ui`) are the same for any two initial pixel buffers,
given the same `cells` and buttons; so are those of two states that `redraw` is run on. -/
theorem redraw_full_repaint (cells : Int → Bool) (buttons : Int → button) :
    (∀ (pixels1 pixels2 : Int → Nat) (k : Int), 0 ≤ k ∧ k < WINDOW_WIDTH * WINDOW_HEIGHT →
      draw_ui buttons (draw_grid cells (clear pixels1 color.BLACK)) k =
        draw_ui buttons (draw_grid cells (clear pixels2 color.BLACK)) k) ∧
    (∀ s1 s2 : State, s1.cells = cells → s2.cells = cells → s1.buttons = buttons →
      s2.buttons = buttons →
      ∀ k : Int, 0 ≤ k ∧ k < WINDOW_WIDTH * WINDOW_HEIGHT →
        (redraw s1).pixels k = (redraw s2).pixels k) := by
  have main : ∀ pixels1 pixels2 : Int → Nat,
      same_window (draw_ui buttons (draw_grid cells (clear pixels1 color.BLACK)))
        (draw_ui buttons (draw_grid cells (clear pixels2 color.BLACK))) :=
    fun pixels1 pixels2 => draw_ui_same_window buttons _ _
      (draw_grid_same_window cells _ _ (clear_same_window color.BLACK pixels1 pixels2))
  have hwin : ∀ k : Int, 0 ≤ k ∧ k < WINDOW_WIDTH * WINDOW_HEIGHT →
      0 ≤ k ∧ k < WINDOW_HEIGHT * WINDOW_WIDTH := by
    intro k hk
    have : 0 ≤ k ∧ k < 640 * 480 := hk
    show 0 ≤ k ∧ k < 480 * 640
    omega
  refine ⟨fun pixels1 pixels2 k hk => main pixels1 pixels2 k (hwin k hk), ?_⟩
  intro s1 s2 c1 c2 e1 e2 k hk
  show draw_ui s1.buttons (draw_grid s1.cells (clear s1.pixels color.BLACK)) k =
    draw_ui s2.buttons (draw_grid s2.cells (clear s2.pixels color.BLACK)) k
  rw [c1, c2, e1, e2]
  exact main s1.pixels s2.pixels k (hwin k hk)

/-- C18 for the sample state and the same state with a white pixel buffer. -/
theorem redraw_full_repaint_witness :
    ∀ k : Int, 0 ≤ k ∧ k < WINDOW_WIDTH * WINDOW_HEIGHT →
      (redraw sample_state).pixels k =
        (redraw { sample_state with pixels := fun _ => 0xFFFFFF }).pixels k :=
  (redraw_full_repaint sample_state.cells sample_state.buttons).2 sample_state
    { sample_state with pixels := fun _ => 0xFFFFFF } rfl rfl rfl rfl

/-! ## The frame accumulator -/

/-- `steps_now` tells exactly when the stepping decision calls `update_cells`. -/
theorem step_decision_steps_now (m : MainState) :
    (steps_now m = true → step_decision m = ⟨update_cells m.globals, 0⟩) ∧
    (steps_now m = false → (step_decision m).globals = m.globals) := by
  unfold steps_now step_decision
  dsimp only
  constructor
  · intro h
    rw [Bool.and_eq_true, decide_eq_true_eq] at h
    rw [if_pos h.1, if_pos h.2]
  · intro h
    split_ifs with h1 h2
    · rw [h1, Bool.true_and, decide_eq_false_iff_not] at h
      exact absurd h2 h
    · rfl
    · rfl

theorem update_cells_cells_congr (s t : State) (h : s.cells = t.cells) :
    (update_cells s).cells = (update_cells t).cells := by
  funext k
  by_cases hk : 0 ≤ k ∧ k < 704
  · have hidx : arrayIdx (k % 32) (k / 32) N_CELLS_X = k := by
      simp only [arrayIdx, N_CELLS_X_eq]
      omega
    rw [← hidx, update_cells_apply s _ _ (by omega) (by omega),
      update_cells_apply t _ _ (by omega) (by omega), h]
  · rw [update_cells_outside s k hk, update_cells_outside t k hk, h]

theorem update_cells_iterate_congr (n : Nat) (s t : State) (h : s.cells = t.cells) :
    (update_cells^[n] s).cells = (update_cells^[n] t).cells := by
  induction n generalizing s t with
  | zero => exact h
  | succ n ih =>
    rw [Function.iterate_succ_apply, Function.iterate_succ_apply]
    exact ih _ _ (update_cells_cells_congr s t h)

/-- Running iterations without events, from a frame counter `c` below the divisor `d`:
after `k` of them `(c + k) / d` steps have been made and the counter is `(c + k) % d`. -/
theorem idle_running (d : Nat) (k : Nat) :
    ∀ (m : MainState) (c : Nat), m.globals.running = true →
      speeds_at m.globals.speed_idx = d → m.frame_next_cells = c → c < d →
      step_count k m = (c + k) / d ∧
      ∃ mk : MainState, idle_iterations k m = some mk ∧
        mk.frame_next_cells = (((c + k) % d : Nat) : Int) ∧
        mk.globals.cells = (update_cells^[(c + k) / d] m.globals).cells ∧
        mk.globals.running = true ∧ mk.globals.speed_idx = m.globals.speed_idx := by
  induction k with
  | zero =>
    intro m c hrun hd hc hcd
    refine ⟨?_, m, rfl, ?_, ?_, hrun, rfl⟩
    · rw [Nat.add_zero, Nat.div_eq_of_lt hcd]
      rfl
    · rw [Nat.add_zero, Nat.mod_eq_of_lt hcd]
      exact hc
    · rw [Nat.add_zero, Nat.div_eq_of_lt hcd]
      rfl
  | succ k ih =>
    intro m c hrun hd hc hcd
    by_cases hlast : c + 1 = d
    · -- the divisor is reached: this iteration steps
      have hge : speeds_at m.globals.speed_idx ≤ m.frame_next_cells + 1 := by
        rw [hd, hc]
        omega
      have hsn : steps_now m = true := by
        unfold steps_now
        rw [hrun, Bool.true_and, decide_eq_true_eq]
        exact hge
      have hf := frame_step m hrun hge
      obtain ⟨h1, mk, h2, h3, h4, h5, h6⟩ := ih (frame m) 0
        (by rw [hf]; exact hrun) (by rw [hf]; exact hd) (by rw [hf]; rfl) (by omega)
      have e : c + (k + 1) = d + k := by omega
      have hdiv : (d + k) / d = k / d + 1 := by
        rw [Nat.add_div_left k (by omega)]
      refine ⟨?_, mk, h2, ?_, ?_, h5, ?_⟩
      · show (if steps_now m = true then 1 else 0) + step_count k (frame m) = _
        rw [hsn, if_pos rfl, h1, e, hdiv, Nat.zero_add]
        omega
      · rw [h3, e, Nat.zero_add, Nat.add_mod_left]
      · rw [h4, e, hdiv, Nat.zero_add, Function.iterate_succ_apply, hf]
        exact update_cells_iterate_congr _ _ _ rfl
      · rw [h6, hf]
        rfl
    · -- below the divisor: this iteration only counts
      have hlt : m.frame_next_cells + 1 < speeds_at m.globals.speed_idx := by
        rw [hd, hc]
        omega
      have hsn : steps_now m = false := by
        unfold steps_now
        rw [hrun, Bool.true_and, decide_eq_false_iff_not]
        exact not_le.mpr hlt
      have hf := frame_wait m hrun hlt
      obtain ⟨h1, mk, h2, h3, h4, h5, h6⟩ := ih (frame m) (c + 1)
        (by rw [hf]; exact hrun) (by rw [hf]; exact hd)
        (by rw [hf]; show m.frame_next_cells + 1 = _; rw [hc]; push_cast; rfl) (by omega)
      have e : c + 1 + k = c + (k + 1) := by omega
      refine ⟨?_, mk, h2, ?_, ?_, h5, ?_⟩
      · show (if steps_now m = true then 1 else 0) + step_count k (frame m) = _
        rw [hsn, if_neg (by decide), h1, e, Nat.zero_add]
      · rw [h3, e]
      · rw [h4, e, hf]
        exact update_cells_iterate_congr _ _ _ rfl
      · rw [h6, hf]
        rfl

/-- C16 (frame accumulator): while `running` is TRUE and no event arrives, after an
iteration that has just stepped (frame counter 0), with `d = speeds[speed_idx]`: of the next
`d` iterations exactly the last one steps, and `k` iterations make exactly `k / d` steps,
leaving the counter at `k % d` and the grid `k / d` generations later. -/
theorem frame_accumulator (m : MainState) (hrun : m.globals.running = true)
    (hspeed : 0 ≤ m.globals.speed_idx ∧ m.globals.speed_idx < N_SPEEDS)
    (hc : m.frame_next_cells = 0) :
    (∀ j : Nat, j < (speeds_at m.globals.speed_idx).toNat →
      ∃ mj : MainState, idle_iterations j m = some mj ∧
        (steps_now mj = true ↔ j + 1 = (speeds_at m.globals.speed_idx).toNat)) ∧
    (∀ k : Nat,
      step_count k m = k / (speeds_at m.globals.speed_idx).toNat ∧
      ∃ mk : MainState, idle_iterations k m = some mk ∧
        mk.frame_next_cells = ((k % (speeds_at m.globals.speed_idx).toNat : Nat) : Int) ∧
        mk.globals.cells =
          (update_cells^[k / (speeds_at m.globals.speed_idx).toNat] m.globals).cells) := by
  obtain ⟨hd1, hd⟩ := speeds_at_pos m.globals.speed_idx hspeed
  have acc := fun k => idle_running (speeds_at m.globals.speed_idx).toNat k m 0 hrun
    hd.symm hc (by omega)
  constructor
  · intro j hj
    obtain ⟨-, mj, h2, h3, -, h5, h6⟩ := acc j
    refine ⟨mj, h2, ?_⟩
    rw [Nat.zero_add, Nat.mod_eq_of_lt hj] at h3
    unfold steps_now
    rw [h5, Bool.true_and, decide_eq_true_eq, h3, h6, ← hd]
    constructor
    · intro h
      have : ((speeds_at m.globals.speed_idx).toNat : Int) ≤ (j : Int) + 1 := h
      omega
    · intro h
      show ((speeds_at m.globals.speed_idx).toNat : Int) ≤ (j : Int) + 1
      omega
  · intro k
    obtain ⟨h1, mk, h2, h3, h4, -, -⟩ := acc k
    rw [Nat.zero_add] at h1 h3 h4
    exact ⟨h1, mk, h2, h3, h4⟩

/-- C16 for the running sample state (divisor 15) with the frame counter at 0. -/
theorem frame_accumulator_witness :
    running_state.running = true ∧
    ∀ k : Nat,
      step_count k ⟨running_state, 0⟩ = k / (speeds_at running_state.speed_idx).toNat ∧
      ∃ mk : MainState, idle_iterations k ⟨running_state, 0⟩ = some mk ∧
        mk.frame_next_cells = ((k % (speeds_at running_state.speed_idx).toNat : Nat) : Int) ∧
        mk.globals.cells =
          (update_cells^[k / (speeds_at running_state.speed_idx).toNat] running_state).cells :=
  ⟨rfl, (frame_accumulator ⟨running_state, 0⟩ rfl (by decide) rfl).2⟩

/-! ## Hit regions -/

theorem mem_cell_corners (cx cy : Int)
    (hcy : cy ∈ loopVals 0 (WINDOW_HEIGHT - ICON_SIZE) CELL_SIZE)
    (hcx : cx ∈ loopVals 0 WINDOW_WIDTH CELL_SIZE) :
    (0 ≤ cx ∧ cx ≤ 620) ∧ (0 ≤ cy ∧ cy ≤ 420) := by
  have hcy' : cy ∈ loopVals 0 440 20 := hcy
  have hcx' : cx ∈ loopVals 0 640 20 := hcx
  simp only [loopVals, List.mem_map, List.mem_range] at hcy' hcx'
  obtain ⟨k, hk, rfl⟩ := hcy'
  obtain ⟨l, hl, rfl⟩ := hcx'
  omega

/-- A point inside the padded square of a cell is above the button row. -/
theorem cell_hit_above (px py cx cy : Int)
    (hcy : cy ∈ loopVals 0 (WINDOW_HEIGHT - ICON_SIZE) CELL_SIZE)
    (hcx : cx ∈ loopVals 0 WINDOW_WIDTH CELL_SIZE)
    (hit : point_in_rectangle px py (cx + CELL_PAD) (cy + CELL_PAD) (CELL_SIZE - CELL_PAD)
      (CELL_SIZE - CELL_PAD) = true) : py < 440 := by
  have h := mem_cell_corners cx cy hcy hcx
  have hit' : point_in_rectangle px py (cx + 2) (cy + 2) 18 18 = true := hit
  rw [point_in_rectangle_iff] at hit'
  omega

/-- A point inside the hit region of a button is in the button row. -/
theorem button_hit_below (s : State) (px py i : Int) (hl : ui_layout s.buttons)
    (hi : i ∈ loopVals 0 N_BUTTONS 1)
    (hit : point_in_rectangle px py (s.buttons i).x (s.buttons i).y ICON_SIZE ICON_SIZE
      = true) :
    (440 < py ∧ py < 480) ∧ 40 * i < px ∧ px < 40 * i + 40 := by
  obtain ⟨⟨x0, y0, -⟩, ⟨x1, y1, -⟩, ⟨x2, y2, -⟩, ⟨x3, y3, -⟩⟩ := (ui_layout_iff _).mp hl
  rw [ICON_SIZE_eq, point_in_rectangle_iff] at hit
  rw [loopVals_buttons] at hi
  simp only [List.mem_cons, List.mem_singleton, List.not_mem_nil, or_false] at hi
  rcases hi with rfl | rfl | rfl | rfl
  · rw [x0, y0] at hit
    omega
  · rw [x1, y1] at hit
    omega
  · rw [x2, y2] at hit
    omega
  · rw [x3, y3] at hit
    omega

theorem button_check_none (s : State) (px py : Int) (hl : ui_layout s.buttons)
    (hno : ∀ i ∈ loopVals 0 N_BUTTONS 1,
      point_in_rectangle px py (s.buttons i).x (s.buttons i).y ICON_SIZE ICON_SIZE = false) :
    button_check s px py = s := by
  obtain ⟨⟨x0, y0, -⟩, ⟨x1, y1, -⟩, ⟨x2, y2, -⟩, ⟨x3, y3, -⟩⟩ := (ui_layout_iff _).mp hl
  have n0 := hno 0 (by decide)
  have n1 := hno 1 (by decide)
  have n2 := hno 2 (by decide)
  have n3 := hno 3 (by decide)
  rw [ICON_SIZE_eq] at n0 n1 n2 n3
  rw [x0, y0] at n0
  rw [x1, y1] at n1
  rw [x2, y2] at n2
  rw [x3, y3] at n3
  rw [button_check_eq s px py hl]
  simp only [n0, n1, n2, n3, Bool.false_eq_true, if_false]

theorem button_check_one (s : State) (px py i : Int) (hl : ui_layout s.buttons)
    (hi : i ∈ loopVals 0 N_BUTTONS 1)
    (hit : point_in_rectangle px py (s.buttons i).x (s.buttons i).y ICON_SIZE ICON_SIZE
      = true) :
    button_check s px py = call_on_click i s := by
  obtain ⟨⟨x0, y0, c0⟩, ⟨x1, y1, c1⟩, ⟨x2, y2, c2⟩, ⟨x3, y3, c3⟩⟩ := (ui_layout_iff _).mp hl
  have hb := button_hit_below s px py i hl hi hit
  have p : ∀ rx : Int, point_in_rectangle px py rx 440 40 40 = true ↔
      (rx < px ∧ px < rx + 40) := by
    intro rx
    rw [point_in_rectangle_iff]
    omega
  rw [loopVals_buttons] at hi
  simp only [List.mem_cons, List.mem_singleton, List.not_mem_nil, or_false] at hi
  rw [button_check_eq s px py hl]
  simp only [p]
  rcases hi with rfl | rfl | rfl | rfl
  · rw [if_pos (by omega)]
    simp only [call_on_click, c0]
  · rw [if_neg (by omega), if_pos (by omega)]
    simp only [call_on_click, c1]
  · rw [if_neg (by omega), if_neg (by omega), if_pos (by omega)]
    simp only [call_on_click, c2]
  · rw [if_neg (by omega), if_neg (by omega), if_neg (by omega), if_pos (by omega)]
    simp only [call_on_click, c3]

/-- C19: with the buttons laid out by `init_ui`, a point is inside the hit region of at most
one button, and never inside both a button's hit region and the padded square of a cell.
So the button check of a pointer-down event calls the handler of the one button hit, or
none; an event that hits a cell calls no handler, and one that hits a button toggles no
cell. -/
theorem hit_regions_disjoint (s : State) (px py : Int) (hl : ui_layout s.buttons) :
    (∀ i ∈ loopVals 0 N_BUTTONS 1, ∀ j ∈ loopVals 0 N_BUTTONS 1,
      point_in_rectangle px py (s.buttons i).x (s.buttons i).y ICON_SIZE ICON_SIZE = true →
      point_in_rectangle px py (s.buttons j).x (s.buttons j).y ICON_SIZE ICON_SIZE = true →
      i = j) ∧
    (∀ i ∈ loopVals 0 N_BUTTONS 1,
      ∀ cy ∈ loopVals 0 (WINDOW_HEIGHT - ICON_SIZE) CELL_SIZE,
      ∀ cx ∈ loopVals 0 WINDOW_WIDTH CELL_SIZE,
        ¬ (point_in_rectangle px py (s.buttons i).x (s.buttons i).y ICON_SIZE ICON_SIZE
            = true ∧
          point_in_rectangle px py (cx + CELL_PAD) (cy + CELL_PAD) (CELL_SIZE - CELL_PAD)
            (CELL_SIZE - CELL_PAD) = true)) ∧
    ((∃ i ∈ loopVals 0 N_BUTTONS 1,
        point_in_rectangle px py (s.buttons i).x (s.buttons i).y ICON_SIZE ICON_SIZE = true ∧
        button_check s px py = call_on_click i s) ∨
      ((∀ i ∈ loopVals 0 N_BUTTONS 1,
        point_in_rectangle px py (s.buttons i).x (s.buttons i).y ICON_SIZE ICON_SIZE
          = false) ∧
        button_check s px py = s)) ∧
    ((∃ cy ∈ loopVals 0 (WINDOW_HEIGHT - ICON_SIZE) CELL_SIZE,
        ∃ cx ∈ loopVals 0 WINDOW_WIDTH CELL_SIZE,
          point_in_rectangle px py (cx + CELL_PAD) (cy + CELL_PAD) (CELL_SIZE - CELL_PAD)
            (CELL_SIZE - CELL_PAD) = true) →
      on_mouse_event s (SDL_Event.MOUSEBUTTONDOWN px py) =
        if s.running = false then { s with cells := (grid_check s.cells px py).1 } else s) ∧
    ((∃ i ∈ loopVals 0 N_BUTTONS 1,
        point_in_rectangle px py (s.buttons i).x (s.buttons i).y ICON_SIZE ICON_SIZE = true) →
      (grid_check s.cells px py).1 = s.cells ∧
      on_mouse_event s (SDL_Event.MOUSEBUTTONDOWN px py) = button_check s px py) := by
  refine ⟨?_, ?_, ?_, ?_, ?_⟩
  · intro i hi j hj h1 h2
    have b1 := button_hit_below s px py i hl hi h1
    have b2 := button_hit_below s px py j hl hj h2
    omega
  · rintro i hi cy hcy cx hcx ⟨h1, h2⟩
    have b1 := button_hit_below s px py i hl hi h1
    have b2 := cell_hit_above px py cx cy hcy hcx h2
    omega
  · by_cases hex : ∃ i ∈ loopVals 0 N_BUTTONS 1,
        point_in_rectangle px py (s.buttons i).x (s.buttons i).y ICON_SIZE ICON_SIZE = true
    · obtain ⟨i, hi, hit⟩ := hex
      exact Or.inl ⟨i, hi, hit, button_check_one s px py i hl hi hit⟩
    · have hno : ∀ i ∈ loopVals 0 N_BUTTONS 1,
          point_in_rectangle px py (s.buttons i).x (s.buttons i).y ICON_SIZE ICON_SIZE
            = false :=
        fun i hi => Bool.eq_false_iff.mpr (fun hit => hex ⟨i, hi, hit⟩)
      exact Or.inr ⟨hno, button_check_none s px py hl hno⟩
  · rintro ⟨cy, hcy, cx, hcx, hit⟩
    have hpy := cell_hit_above px py cx cy hcy hcx hit
    show button_check (if s.running = false then
      { s with cells := (grid_check s.cells px py).1 } else s) px py = _
    refine button_check_none _ px py ?_ ?_
    · split_ifs <;> exact hl
    · intro i hi
      refine Bool.eq_false_iff.mpr (fun hb => ?_)
      have hl' : ui_layout (if s.running = false then
          { s with cells := (grid_check s.cells px py).1 } else s).buttons := by
        split_ifs <;> exact hl
      have := button_hit_below _ px py i hl' hi hb
      omega
  · rintro ⟨i, hi, hit⟩
    have hpy := (button_hit_below s px py i hl hi hit).1.1
    exact ⟨grid_check_below s.cells px py (by omega),
      on_mouse_event_below s px py (by omega)⟩

/-- C19 for the sample state and a click at `(130, 460)`, inside the Clear button only. -/
theorem hit_regions_disjoint_witness :
    ui_layout sample_state.buttons ∧
    (grid_check sample_state.cells 130 460).1 = sample_state.cells ∧
    on_mouse_event sample_state (SDL_Event.MOUSEBUTTONDOWN 130 460) =
      button_check sample_state 130 460 :=
  ⟨(ui_layout_iff _).mpr (by decide),
    (hit_regions_disjoint sample_state 130 460 ((ui_layout_iff _).mpr (by decide))).2.2.2.2
      ⟨3, by decide, by decide⟩⟩

/-! ## Translation on the torus -/

theorem shift_cells_apply (a b : Int) (cells : Int → Bool) (u v : Int)
    (hu : 0 ≤ u ∧ u < 32) (hv : 0 ≤ v ∧ v < 22) :
    shift_cells a b cells (arrayIdx u v 32) =
      cells (arrayIdx ((u - a) % 32) ((v - b) % 22) 32) := by
  have hk : 0 ≤ arrayIdx u v 32 ∧ arrayIdx u v 32 < N_CELLS_X * N_CELLS_Y := by
    show 0 ≤ u + v * 32 ∧ u + v * 32 < 32 * 22
    omega
  have e1 : arrayIdx u v 32 % 32 = u := by
    show (u + v * 32) % 32 = u
    omega
  have e2 : arrayIdx u v 32 / 32 = v := by
    show (u + v * 32) / 32 = v
    omega
  unfold shift_cells
  rw [if_pos hk]
  show cells (arrayIdx ((arrayIdx u v 32 % 32 - a) % 32) ((arrayIdx u v 32 / 32 - b) % 22) 32)
    = _
  rw [e1, e2]

/-- C20 (translation equivariance): moving the grid by `(a, b)` with wraparound and then
running `update_cells` gives the same `cells` buffer as running `update_cells` and then
moving the result by `(a, b)`. -/
theorem update_cells_shift (s : State) (a b : Int) :
    (update_cells { s with cells := shift_cells a b s.cells }).cells =
      shift_cells a b (update_cells s).cells := by
  funext k
  by_cases hk : 0 ≤ k ∧ k < 704
  · have hidx : arrayIdx (k % 32) (k / 32) 32 = k := by
      show k % 32 + k / 32 * 32 = k
      omega
    have hu : 0 ≤ k % 32 ∧ k % 32 < 32 := by omega
    have hv : 0 ≤ k / 32 ∧ k / 32 < 22 := by omega
    have h1 := update_cells_pattern { s with cells := shift_cells a b s.cells }
      (shifted (fun u v => s.cells (arrayIdx u v 32)) a b)
      (fun u v hu hv => shift_cells_apply a b s.cells u v hu hv) (k % 32) (k / 32) hu hv
    have h2 := update_cells_pattern s (fun u v => s.cells (arrayIdx u v 32))
      (fun u v _ _ => rfl) ((k % 32 - a) % 32) ((k / 32 - b) % 22) (by omega) (by omega)
    have h3 := shift_cells_apply a b (update_cells s).cells (k % 32) (k / 32) hu hv
    rw [pattern_count_shifted] at h1
    rw [hidx] at h3
    rw [show arrayIdx (k % 32) (k / 32) N_CELLS_X = k from hidx] at h1
    rw [h1, h3]
    exact h2.symm
  · have hk' : ¬ (0 ≤ k ∧ k < N_CELLS_X * N_CELLS_Y) := hk
    rw [update_cells_outside _ k hk]
    show shift_cells a b s.cells k = shift_cells a b (update_cells s).cells k
    unfold shift_cells
    rw [if_neg hk', if_neg hk', update_cells_outside s k hk]

end Grid
